import Mathlib

/-!
Formal model of the bounding-box consolidation engine of the `hiroba`
repository (`banner/clean_bounding_boxes.py` and
`workers/banner/src/banner/bounding_boxes.py`).

Python floats are idealised as real numbers.  The two external geometry
libraries are modelled mathematically:

* `shapely` polygons of a vertex list are modelled as the closed convex hull
  of the vertices (`inHull`); `Polygon.intersects` becomes non-emptiness of
  the intersection of the hulls, `Polygon.intersection(..).area` becomes the
  Lebesgue measure of that intersection, and `Polygon.area` is the shoelace
  formula (these agree with shapely on the convex quadrilaterals the engine
  manipulates).
* `matplotlib.path.Path.contains_points` is modelled as hull membership of
  the sample point.

Everything else is translated line by line from the Python source.
-/

open scoped Classical

set_option maxRecDepth 20000

noncomputable section

/-- A 2D point, `Point` of the source (x/y in image pixel space). -/
structure Point where
  x : ℝ
  y : ℝ

/-- A bounding box: the `BoundingBox` dataclass of the source.  The Python
dataclass performs no validation whatsoever on construction, so the vertex
list may have any length; derived quantities below index into it exactly the
way the Python properties do (an out-of-range Python index error is
idealised by the default point `(0,0)`, which is never reached on the
four-vertex boxes the engine actually builds). -/
structure BoundingBox where
  vertices : List Point

/-- A text annotation: `TextAnnotation` of the source. -/
structure TextAnnotation where
  description : String
  bounding_poly : BoundingBox

instance : Inhabited Point := ⟨⟨0, 0⟩⟩
instance : Inhabited BoundingBox := ⟨⟨[]⟩⟩
instance : Inhabited TextAnnotation := ⟨⟨"", ⟨[]⟩⟩⟩

/-- `i`-th vertex (Python `self.vertices[i]`). -/
def BoundingBox.vtx (b : BoundingBox) (i : ℕ) : Point :=
  b.vertices.getD i ⟨0, 0⟩

/-- Python's `min` of a list of floats (the source only applies it to
non-empty lists). -/
def listMin (l : List ℝ) : ℝ :=
  match l with
  | [] => 0
  | x :: xs => xs.foldl min x

/-- Python's `max` of a list of floats. -/
def listMax (l : List ℝ) : ℝ :=
  match l with
  | [] => 0
  | x :: xs => xs.foldl max x

/-- `BoundingBox.center`: arithmetic mean of the vertices — the Python
property sums every vertex and divides by 4. -/
def BoundingBox.center (b : BoundingBox) : Point :=
  ⟨(b.vertices.map Point.x).sum / 4, (b.vertices.map Point.y).sum / 4⟩

/-- The C/Python `math.atan2`, with `atan2 0 0 = 0`. -/
def atan2 (y x : ℝ) : ℝ :=
  if 0 < x then Real.arctan (y / x)
  else if x < 0 ∧ 0 ≤ y then Real.arctan (y / x) + Real.pi
  else if x < 0 then Real.arctan (y / x) - Real.pi
  else if 0 < y then Real.pi / 2
  else if y < 0 then -(Real.pi / 2)
  else 0

/-- `BoundingBox.angle`: direction of the edge from vertex 0 to vertex 1. -/
def BoundingBox.angle (b : BoundingBox) : ℝ :=
  atan2 ((b.vtx 1).y - (b.vtx 0).y) ((b.vtx 1).x - (b.vtx 0).x)

/-- Euclidean distance between two points (`math.sqrt(dx*dx + dy*dy)`). -/
def ptDist (p q : Point) : ℝ :=
  Real.sqrt ((q.x - p.x) * (q.x - p.x) + (q.y - p.y) * (q.y - p.y))

/-- `BoundingBox.dimensions`: width = average of edges 0 and 2, height =
average of edges 1 and 3 (edges between consecutive vertices mod 4). -/
def BoundingBox.dimensions (b : BoundingBox) : ℝ × ℝ :=
  let d0 := ptDist (b.vtx 0) (b.vtx 1)
  let d1 := ptDist (b.vtx 1) (b.vtx 2)
  let d2 := ptDist (b.vtx 2) (b.vtx 3)
  let d3 := ptDist (b.vtx 3) (b.vtx 0)
  ((d0 + d2) / 2, (d1 + d3) / 2)

/-- `BoundingBox.area`: rectangle-model area (width × height). -/
def BoundingBox.area (b : BoundingBox) : ℝ :=
  b.dimensions.1 * b.dimensions.2

/-- Convex-combination membership in the hull of a vertex list: the model of
shapely polygon membership for the convex quadrilaterals of this engine. -/
def inHull (p : ℝ × ℝ) (vs : List Point) : Prop :=
  ∃ w : List ℝ, w.length = vs.length ∧ (∀ c ∈ w, 0 ≤ c) ∧ w.sum = 1 ∧
    (List.zipWith (fun c (q : Point) => c * q.x) w vs).sum = p.1 ∧
    (List.zipWith (fun c (q : Point) => c * q.y) w vs).sum = p.2

/-- Model of shapely `polygon1.intersects(polygon2)` on the zero-expansion
polygons of the two boxes. -/
def polyIntersects (b1 b2 : BoundingBox) : Prop :=
  ∃ p : ℝ × ℝ, inHull p b1.vertices ∧ inHull p b2.vertices

/-- Model of shapely `Polygon.area` (shoelace formula over the closed vertex
cycle). -/
def shoelaceArea (vs : List Point) : ℝ :=
  |((vs.zip (vs.rotate 1)).map fun pq => pq.1.x * pq.2.y - pq.2.x * pq.1.y).sum| / 2

/-- Model of shapely `polygon1.intersection(polygon2).area`: Lebesgue area of
the intersection of the two hulls. -/
def intersectionArea (b1 b2 : BoundingBox) : ℝ :=
  (MeasureTheory.volume {p : ℝ × ℝ | inHull p b1.vertices ∧ inHull p b2.vertices}).toReal

/-- Python `math.degrees`. -/
def degrees (r : ℝ) : ℝ :=
  r * 180 / Real.pi

/-- The sample point of row `j`, column `i` of the 100×100 grid built by
`calculate_iou`: `np.linspace` endpoints are the min/max coordinates over the
vertices of both boxes. -/
def iouGrid (b1 b2 : BoundingBox) (i j : Fin 100) : ℝ × ℝ :=
  let x_min := min (listMin (b1.vertices.map Point.x)) (listMin (b2.vertices.map Point.x))
  let x_max := max (listMax (b1.vertices.map Point.x)) (listMax (b2.vertices.map Point.x))
  let y_min := min (listMin (b1.vertices.map Point.y)) (listMin (b2.vertices.map Point.y))
  let y_max := max (listMax (b1.vertices.map Point.y)) (listMax (b2.vertices.map Point.y))
  (x_min + (i : ℝ) * (x_max - x_min) / 99, y_min + (j : ℝ) * (y_max - y_min) / 99)

/-- `mask1 & mask2` count of `calculate_iou`: grid points inside both
polygons. -/
def iouInterCount (b1 b2 : BoundingBox) : ℕ :=
  (Finset.univ.filter fun ij : Fin 100 × Fin 100 =>
    inHull (iouGrid b1 b2 ij.1 ij.2) b1.vertices ∧
      inHull (iouGrid b1 b2 ij.1 ij.2) b2.vertices).card

/-- `mask1 | mask2` count of `calculate_iou`: grid points inside at least one
polygon. -/
def iouUnionCount (b1 b2 : BoundingBox) : ℕ :=
  (Finset.univ.filter fun ij : Fin 100 × Fin 100 =>
    inHull (iouGrid b1 b2 ij.1 ij.2) b1.vertices ∨
      inHull (iouGrid b1 b2 ij.1 ij.2) b2.vertices).card

/-- `calculate_iou`: grid-sampled intersection over union, `0` when the union
count is zero. -/
def calculate_iou (b1 b2 : BoundingBox) : ℝ :=
  if iouUnionCount b1 b2 > 0 then
    (iouInterCount b1 b2 : ℝ) / (iouUnionCount b1 b2 : ℝ)
  else 0

/-- `boxes_overlap`: the three-gate overlap predicate, translated with the
source's early returns. -/
def boxes_overlap (box1 box2 : BoundingBox) : Prop :=
  let angle1 := box1.angle
  let angle2 := box2.angle
  let angle_diff := min |angle1 - angle2| (2 * Real.pi - |angle1 - angle2|)
  if degrees angle_diff > 5 then False
  else
    let reference_angle := (angle1 + angle2) / 2
    let cos_angle := Real.cos (-reference_angle)
    let sin_angle := Real.sin (-reference_angle)
    let y2_rotated := (box2.center.x - box1.center.x) * sin_angle +
      (box2.center.y - box1.center.y) * cos_angle
    let y_center_diff := |y2_rotated|
    if y_center_diff > min box1.dimensions.2 box2.dimensions.2 / 2 then False
    else polyIntersects box1 box2

/-- The inner `rotate_points` helper of `boxes_vertically_aligned` (and the
same rotation used by `merge_boxes`): each vertex translated by the centre
and rotated with the given cosine/sine. -/
def rotateVerts (b : BoundingBox) (cosA sinA cx cy : ℝ) : List (ℝ × ℝ) :=
  b.vertices.map fun p =>
    ((p.x - cx) * cosA - (p.y - cy) * sinA, (p.x - cx) * sinA + (p.y - cy) * cosA)

/-- A box's vertices rotated into box1's own reference frame (box1's angle,
centred at box1's centre): the `rotate_points(box, center_x, center_y)` call
of `boxes_vertically_aligned`. -/
def rotInFrame1 (box1 b : BoundingBox) : List (ℝ × ℝ) :=
  rotateVerts b (Real.cos (-box1.angle)) (Real.sin (-box1.angle))
    box1.center.x box1.center.y

/-- `box_min_y` of `boxes_vertically_aligned`: rotated-frame minimum y. -/
def frameMinY (box1 b : BoundingBox) : ℝ := listMin ((rotInFrame1 box1 b).map Prod.snd)

/-- `box_max_y` of `boxes_vertically_aligned`: rotated-frame maximum y. -/
def frameMaxY (box1 b : BoundingBox) : ℝ := listMax ((rotInFrame1 box1 b).map Prod.snd)

/-- `box_min_x` of `boxes_vertically_aligned`: rotated-frame minimum x. -/
def frameMinX (box1 b : BoundingBox) : ℝ := listMin ((rotInFrame1 box1 b).map Prod.fst)

/-- `box_max_x` of `boxes_vertically_aligned`: rotated-frame maximum x. -/
def frameMaxX (box1 b : BoundingBox) : ℝ := listMax ((rotInFrame1 box1 b).map Prod.fst)

/-- `h_distance` of `boxes_vertically_aligned`: horizontal distance between
the rotated x-extents, zero when they overlap. -/
def alignedHGap (box1 box2 : BoundingBox) : ℝ :=
  if frameMaxX box1 box1 < frameMinX box1 box2 then
    frameMinX box1 box2 - frameMaxX box1 box1
  else if frameMaxX box1 box2 < frameMinX box1 box1 then
    frameMinX box1 box1 - frameMaxX box1 box2
  else 0

/-- `boxes_vertically_aligned`: the adjacency predicate, translated with the
source's early returns; the reference frame is box 1's angle at box 1's
centre. -/
def boxes_vertically_aligned (box1 box2 : BoundingBox) : Prop :=
  let angle_diff := min |box1.angle - box2.angle| (2 * Real.pi - |box1.angle - box2.angle|)
  if degrees angle_diff > 5 then False
  else if min (frameMaxY box1 box1) (frameMaxY box1 box2) -
        max (frameMinY box1 box1) (frameMinY box1 box2) <
      min (frameMaxY box1 box1 - frameMinY box1 box1)
        (frameMaxY box1 box2 - frameMinY box1 box2) * (1 / 2) then False
  else
    alignedHGap box1 box2 <
      (frameMaxY box1 box1 - frameMinY box1 box1 +
        (frameMaxY box1 box2 - frameMinY box1 box2)) / 2 / 2

/-- `merge_boxes`: merged description by containment / IoU / reading order,
merged geometry as the rotated-frame bounding rectangle of all eight
vertices, anchored at the first annotation's centre with the larger box's
angle. -/
def merge_boxes (ann1 ann2 : TextAnnotation) : TextAnnotation :=
  let iou := calculate_iou ann1.bounding_poly ann2.bounding_poly
  let box1_area := ann1.bounding_poly.area
  let box2_area := ann2.bounding_poly.area
  let inter := intersectionArea ann1.bounding_poly ann2.bounding_poly
  let poly1_area := shoelaceArea ann1.bounding_poly.vertices
  let poly2_area := shoelaceArea ann2.bounding_poly.vertices
  let containment_ratio_1_in_2 := if poly1_area > 0 then inter / poly1_area else 0
  let containment_ratio_2_in_1 := if poly2_area > 0 then inter / poly2_area else 0
  let description :=
    if containment_ratio_1_in_2 > 0.95 ∨ containment_ratio_2_in_1 > 0.95 then
      if box1_area ≥ box2_area then ann1.description else ann2.description
    else if iou > 0.5 then
      if ann1.description.length ≥ ann2.description.length then ann1.description
      else ann2.description
    else if ann1.bounding_poly.center.x ≤ ann2.bounding_poly.center.x then
      ann1.description ++ " " ++ ann2.description
    else ann2.description ++ " " ++ ann1.description
  let merged_angle :=
    if box1_area ≥ box2_area then ann1.bounding_poly.angle else ann2.bounding_poly.angle
  let cos_angle := Real.cos (-merged_angle)
  let sin_angle := Real.sin (-merged_angle)
  let cx := ann1.bounding_poly.center.x
  let cy := ann1.bounding_poly.center.y
  let rotated := rotateVerts ann1.bounding_poly cos_angle sin_angle cx cy ++
    rotateVerts ann2.bounding_poly cos_angle sin_angle cx cy
  let x_min_rot := listMin (rotated.map Prod.fst)
  let x_max_rot := listMax (rotated.map Prod.fst)
  let y_min_rot := listMin (rotated.map Prod.snd)
  let y_max_rot := listMax (rotated.map Prod.snd)
  let corners : List (ℝ × ℝ) :=
    [(x_min_rot, y_min_rot), (x_max_rot, y_min_rot), (x_max_rot, y_max_rot), (x_min_rot, y_max_rot)]
  let merged_vertices := corners.map fun q =>
    Point.mk (q.1 * cos_angle + q.2 * sin_angle + cx) (-q.1 * sin_angle + q.2 * cos_angle + cy)
  ⟨description, ⟨merged_vertices⟩⟩

/-- First index `j` (into `rest`) with `crit a rest[j]`: the inner `for j`
loop of `merge_boxes_with_criteria`. -/
def findJ (crit : BoundingBox → BoundingBox → Prop) (a : TextAnnotation) :
    List TextAnnotation → Option ℕ
  | [] => none
  | b :: rest =>
    if crit a.bounding_poly b.bounding_poly then some 0
    else (findJ crit a rest).map fun n => n + 1

/-- First pair `(i, j)`, `i < j`, in row-major scan order with
`crit anns[i] anns[j]`: the double `for` loop of
`merge_boxes_with_criteria`. -/
def findPair (crit : BoundingBox → BoundingBox → Prop) :
    List TextAnnotation → Option (ℕ × ℕ)
  | [] => none
  | a :: rest =>
    match findJ crit a rest with
    | some j => some (0, j + 1)
    | none => (findPair crit rest).map fun ij => (ij.1 + 1, ij.2 + 1)

/-- `annotations[:i] + annotations[i+1:j] + annotations[j+1:] +
[merge_boxes(annotations[i], annotations[j])]`: the merge-and-splice step of
`merge_boxes_with_criteria`. -/
def spliceMerge (anns : List TextAnnotation) (i j : ℕ) : List TextAnnotation :=
  anns.take i ++ ((anns.drop (i + 1)).take (j - (i + 1))) ++ anns.drop (j + 1) ++
    [merge_boxes (anns.getD i default) (anns.getD j default)]

/-- The `while True` loop of `merge_boxes_with_criteria`, fuelled: every
merge shortens the list by one, so `anns.length` steps always reach the
fixed point (proved below as part of C2/C9). -/
def mbwcAux (crit : BoundingBox → BoundingBox → Prop) :
    ℕ → List TextAnnotation → List TextAnnotation
  | 0, anns => anns
  | n + 1, anns =>
    match findPair crit anns with
    | none => anns
    | some (i, j) => mbwcAux crit n (spliceMerge anns i j)

/-- `merge_boxes_with_criteria`: repeatedly merge the first matching pair and
restart the scan, until no pair matches. -/
def merge_boxes_with_criteria (crit : BoundingBox → BoundingBox → Prop)
    (anns : List TextAnnotation) : List TextAnnotation :=
  mbwcAux crit anns.length anns

/-- `clean_text_annotations` (worker variant, which consumes annotations
directly): pass 1 with `boxes_overlap`, then pass 2 with
`boxes_vertically_aligned` on its result. -/
def clean_text_annotations (anns : List TextAnnotation) : List TextAnnotation :=
  merge_boxes_with_criteria boxes_vertically_aligned
    (merge_boxes_with_criteria boxes_overlap anns)

/-- A raw OCR vertex as the conversion sees it: either coordinate may be
missing (`hasattr` in the source). -/
structure RawVertex where
  xc : Option ℝ
  yc : Option ℝ

/-- A raw OCR detection: a description plus raw vertices. -/
structure RawDetection where
  description : String
  vertices : List RawVertex

/-- `convert_raw_annotations_to_text_annotations`: skip the first (whole
image) detection, default missing coordinates to 0, and keep only detections
that resolve to exactly four points. -/
def convert_raw_annotations_to_text_annotations (raws : List RawDetection) :
    List TextAnnotation :=
  (raws.drop 1).filterMap fun ann =>
    let points := ann.vertices.map fun v => Point.mk (v.xc.getD 0) (v.yc.getD 0)
    if points.length = 4 then some ⟨ann.description, ⟨points⟩⟩ else none

/-- Number of merges performed by the `merge_boxes_with_criteria` loop
(fuelled like `mbwcAux`). -/
def mergeCountAux (crit : BoundingBox → BoundingBox → Prop) :
    ℕ → List TextAnnotation → ℕ
  | 0, _ => 0
  | n + 1, anns =>
    match findPair crit anns with
    | none => 0
    | some (i, j) => mergeCountAux crit n (spliceMerge anns i j) + 1

/-- Number of merges performed by one pass of `merge_boxes_with_criteria`. -/
def mergeCount (crit : BoundingBox → BoundingBox → Prop)
    (anns : List TextAnnotation) : ℕ :=
  mergeCountAux crit anns.length anns

/-! ### Spec-side gate formulations (§4.2 / §4.3 of the design) -/

/-- Spec §4.2/§4.3 gate 1: angular difference normalized into [0, π] is at
most 5 degrees. -/
def angleGate (box1 box2 : BoundingBox) : Prop :=
  degrees (min |box1.angle - box2.angle| (2 * Real.pi - |box1.angle - box2.angle|)) ≤ 5

/-- Spec §4.2 gate 2: the absolute vertical displacement of box2's centre
relative to box1's centre, in the frame rotated by the average of the two
angles, is at most half the smaller height. -/
def overlapCenterGate (box1 box2 : BoundingBox) : Prop :=
  |(box2.center.x - box1.center.x) * Real.sin (-((box1.angle + box2.angle) / 2)) +
      (box2.center.y - box1.center.y) * Real.cos (-((box1.angle + box2.angle) / 2))| ≤
    min box1.dimensions.2 box2.dimensions.2 / 2

/-- Spec §4.3 gate 2: vertical overlap `min(maxY_A, maxY_B) − max(minY_A,
minY_B)` is at least 50% of the smaller rotated height. -/
def alignedVerticalGate (box1 box2 : BoundingBox) : Prop :=
  min (frameMaxY box1 box1) (frameMaxY box1 box2) -
      max (frameMinY box1 box1) (frameMinY box1 box2) ≥
    min (frameMaxY box1 box1 - frameMinY box1 box1)
      (frameMaxY box1 box2 - frameMinY box1 box2) * (1 / 2)

/-- Spec §4.3 gate 3: the horizontal gap is strictly less than half the
average of the two rotated heights. -/
def alignedGapGate (box1 box2 : BoundingBox) : Prop :=
  alignedHGap box1 box2 <
    (frameMaxY box1 box1 - frameMinY box1 box1 +
      (frameMaxY box1 box2 - frameMinY box1 box2)) / 2 / 2

/-! ### Named pieces of the merged-box construction (the locals of
`merge_boxes`) -/

/-- `merged_angle` of `merge_boxes`: the angle of the larger
rectangle-model-area input, ties to the first operand. -/
def mergedAngle (ann1 ann2 : TextAnnotation) : ℝ :=
  if ann1.bounding_poly.area ≥ ann2.bounding_poly.area then ann1.bounding_poly.angle
  else ann2.bounding_poly.angle

/-- `rotated_points` of `merge_boxes`: all eight vertices rotated into the
frame anchored at the first operand's centre with the merged angle. -/
def mergedRotatedPts (ann1 ann2 : TextAnnotation) : List (ℝ × ℝ) :=
  rotateVerts ann1.bounding_poly (Real.cos (-(mergedAngle ann1 ann2)))
      (Real.sin (-(mergedAngle ann1 ann2)))
      ann1.bounding_poly.center.x ann1.bounding_poly.center.y ++
    rotateVerts ann2.bounding_poly (Real.cos (-(mergedAngle ann1 ann2)))
      (Real.sin (-(mergedAngle ann1 ann2)))
      ann1.bounding_poly.center.x ann1.bounding_poly.center.y

/-- `x_min_rot` of `merge_boxes`. -/
def mergedXMin (ann1 ann2 : TextAnnotation) : ℝ :=
  listMin ((mergedRotatedPts ann1 ann2).map Prod.fst)

/-- `x_max_rot` of `merge_boxes`. -/
def mergedXMax (ann1 ann2 : TextAnnotation) : ℝ :=
  listMax ((mergedRotatedPts ann1 ann2).map Prod.fst)

/-- `y_min_rot` of `merge_boxes`. -/
def mergedYMin (ann1 ann2 : TextAnnotation) : ℝ :=
  listMin ((mergedRotatedPts ann1 ann2).map Prod.snd)

/-- `y_max_rot` of `merge_boxes`. -/
def mergedYMax (ann1 ann2 : TextAnnotation) : ℝ :=
  listMax ((mergedRotatedPts ann1 ann2).map Prod.snd)

/-! ### Concrete instances used by witnesses and counterexamples -/

/-- An axis-aligned 100×100 square. -/
def sqBox : BoundingBox :=
  ⟨[⟨0, 0⟩, ⟨100, 0⟩, ⟨100, 100⟩, ⟨0, 100⟩]⟩

/-- An axis-aligned 10×10 square (angle 0). -/
def boxR0 : BoundingBox :=
  ⟨[⟨0, 0⟩, ⟨10, 0⟩, ⟨10, 10⟩, ⟨0, 10⟩]⟩

/-- The same square with the vertex cycle started so that the first edge is
vertical (angle 90°). -/
def boxR90 : BoundingBox :=
  ⟨[⟨0, 0⟩, ⟨0, 10⟩, ⟨10, 10⟩, ⟨10, 0⟩]⟩

/-- Axis-aligned box with vertical span [0, 30]. -/
def boxLow : BoundingBox :=
  ⟨[⟨0, 0⟩, ⟨50, 0⟩, ⟨50, 30⟩, ⟨0, 30⟩]⟩

/-- Axis-aligned box with vertical span [100, 130]: vertically separated from
`boxLow`. -/
def boxHigh : BoundingBox :=
  ⟨[⟨0, 100⟩, ⟨50, 100⟩, ⟨50, 130⟩, ⟨0, 130⟩]⟩

/-- Box A of the idempotence counterexample: a 235×10 rectangle tilted along
the direction (840, 41)/841 (a Pythagorean triple, so every derived quantity
is rational), spanning u ∈ [-120, 115], v ∈ [-5, 5] in tilted-frame
coordinates. -/
def cexA : BoundingBox :=
  ⟨[⟨-100595 / 841, -9120 / 841⟩, ⟨96805 / 841, 515 / 841⟩,
    ⟨96395 / 841, 8915 / 841⟩, ⟨-101005 / 841, -720 / 841⟩]⟩

/-- Box B of the idempotence counterexample: a 1×8 rectangle with the same
tilt, spanning u ∈ [119, 120], v ∈ [-5, 3]: separated from A along u by a
gap of 4, so pass 2 merges them. -/
def cexB : BoundingBox :=
  ⟨[⟨100165 / 841, 679 / 841⟩, ⟨101005 / 841, 720 / 841⟩,
    ⟨100677 / 841, 7440 / 841⟩, ⟨99837 / 841, 7399 / 841⟩]⟩

/-- Box C of the idempotence counterexample: a wide axis-aligned rectangle
[119, 1119] × [10.7, 20.7] touching only the bottom-right corner region of
the merged box of A and B. -/
def cexC : BoundingBox :=
  ⟨[⟨119, 107 / 10⟩, ⟨1119, 107 / 10⟩, ⟨1119, 207 / 10⟩, ⟨119, 207 / 10⟩]⟩

/-- The box `merge_boxes` produces for A and B: the tilted rectangle
u ∈ [-120, 120], v ∈ [-5, 5]. -/
def cexAB : BoundingBox :=
  ⟨[⟨-100595 / 841, -9120 / 841⟩, ⟨101005 / 841, 720 / 841⟩,
    ⟨100595 / 841, 9120 / 841⟩, ⟨-101005 / 841, -720 / 841⟩]⟩

/-- The annotated counterexample input list. -/
def cexAnnA : TextAnnotation := ⟨"a", cexA⟩

/-- Annotation around `cexB`. -/
def cexAnnB : TextAnnotation := ⟨"b", cexB⟩

/-- Annotation around `cexC`. -/
def cexAnnC : TextAnnotation := ⟨"c", cexC⟩

/-- Input list on which `clean_text_annotations` is not idempotent. -/
def cexInput : List TextAnnotation := [cexAnnA, cexAnnB, cexAnnC]

/-- A degenerate box with no vertices at all (the dataclass accepts it). -/
def emptyBox : BoundingBox := ⟨[]⟩

/-- An annotation whose description is the empty string. -/
def emptyDescAnn : TextAnnotation := ⟨"", sqBox⟩

end

/-! ### Basic lemmas about the list folds and hull membership -/

theorem foldl_min_le_init (xs : List ℝ) (x : ℝ) : xs.foldl min x ≤ x := by
  induction xs generalizing x with
  | nil => simp
  | cons y ys ih => exact (ih (min x y)).trans (min_le_left x y)

theorem foldl_min_le_mem {xs : List ℝ} {a : ℝ} (h : a ∈ xs) (x : ℝ) :
    xs.foldl min x ≤ a := by
  induction xs generalizing x with
  | nil => cases h
  | cons y ys ih =>
    rcases List.mem_cons.mp h with rfl | h2
    · exact (foldl_min_le_init ys (min x a)).trans (min_le_right x a)
    · exact ih h2 (min x y)

theorem init_le_foldl_max (xs : List ℝ) (x : ℝ) : x ≤ xs.foldl max x := by
  induction xs generalizing x with
  | nil => simp
  | cons y ys ih => exact (le_max_left x y).trans (ih (max x y))

theorem mem_le_foldl_max {xs : List ℝ} {a : ℝ} (h : a ∈ xs) (x : ℝ) :
    a ≤ xs.foldl max x := by
  induction xs generalizing x with
  | nil => cases h
  | cons y ys ih =>
    rcases List.mem_cons.mp h with rfl | h2
    · exact (le_max_right x a).trans (init_le_foldl_max ys (max x a))
    · exact ih h2 (max x y)

theorem listMin_le_of_mem {l : List ℝ} {a : ℝ} (h : a ∈ l) : listMin l ≤ a := by
  match l, h with
  | x :: xs, h =>
    rcases List.mem_cons.mp h with rfl | h2
    · exact foldl_min_le_init xs a
    · exact foldl_min_le_mem h2 x

theorem le_listMax_of_mem {l : List ℝ} {a : ℝ} (h : a ∈ l) : a ≤ listMax l := by
  match l, h with
  | x :: xs, h =>
    rcases List.mem_cons.mp h with rfl | h2
    · exact init_le_foldl_max xs a
    · exact mem_le_foldl_max h2 x

theorem not_inHull_nil (p : ℝ × ℝ) : ¬ inHull p [] := by
  rintro ⟨w, hlen, -, hsum, -⟩
  rw [List.length_eq_zero.mp hlen] at hsum
  simp at hsum

theorem combo_linear_le (a b r : ℝ) :
    ∀ (w : List ℝ) (vs : List Point), w.length = vs.length →
      (∀ c ∈ w, 0 ≤ c) → (∀ v ∈ vs, a * v.x + b * v.y ≤ r) →
      a * (List.zipWith (fun c (q : Point) => c * q.x) w vs).sum +
        b * (List.zipWith (fun c (q : Point) => c * q.y) w vs).sum ≤ r * w.sum := by
  intro w
  induction w with
  | nil => intro vs _ _ _; simp
  | cons c cs ih =>
    intro vs hlen hw hv
    match vs with
    | [] => simp at hlen
    | v :: vt =>
      have hc : 0 ≤ c := hw c (List.mem_cons_self c cs)
      have hcs : ∀ x ∈ cs, 0 ≤ x := fun x hx => hw x (List.mem_cons_of_mem c hx)
      have hvt : ∀ x ∈ vt, a * x.x + b * x.y ≤ r :=
        fun x hx => hv x (List.mem_cons_of_mem v hx)
      have hvr : a * v.x + b * v.y ≤ r := hv v (List.mem_cons_self v vt)
      have ihm := ih vt (by simpa using hlen) hcs hvt
      simp only [List.zipWith_cons_cons, List.sum_cons]
      have expand : a * (c * v.x + (List.zipWith (fun c (q : Point) => c * q.x) cs vt).sum) +
          b * (c * v.y + (List.zipWith (fun c (q : Point) => c * q.y) cs vt).sum) =
          c * (a * v.x + b * v.y) +
          (a * (List.zipWith (fun c (q : Point) => c * q.x) cs vt).sum +
            b * (List.zipWith (fun c (q : Point) => c * q.y) cs vt).sum) := by ring
      rw [expand]
      have h1 : c * (a * v.x + b * v.y) ≤ c * r := mul_le_mul_of_nonneg_left hvr hc
      calc c * (a * v.x + b * v.y) +
            (a * (List.zipWith (fun c (q : Point) => c * q.x) cs vt).sum +
              b * (List.zipWith (fun c (q : Point) => c * q.y) cs vt).sum)
          ≤ c * r + r * cs.sum := add_le_add h1 ihm
        _ = r * (c + cs.sum) := by ring

theorem inHull_linear_le {p : ℝ × ℝ} {vs : List Point} {a b r : ℝ}
    (hp : inHull p vs) (hv : ∀ v ∈ vs, a * v.x + b * v.y ≤ r) :
    a * p.1 + b * p.2 ≤ r := by
  obtain ⟨w, hlen, hw, hsum, hx, hy⟩ := hp
  have := combo_linear_le a b r w vs hlen hw hv
  rw [hx, hy, hsum, mul_one] at this
  exact this

theorem arctan_nonpos {t : ℝ} (h : t ≤ 0) : Real.arctan t ≤ 0 :=
  (Real.arctan_strictMono.le_iff_le.mpr h).trans_eq Real.arctan_zero

theorem arctan_nonneg {t : ℝ} (h : 0 ≤ t) : 0 ≤ Real.arctan t :=
  Real.arctan_zero.symm.trans_le (Real.arctan_strictMono.le_iff_le.mpr h)

theorem arctan_pos_of_pos {t : ℝ} (h : 0 < t) : 0 < Real.arctan t :=
  Real.arctan_zero.symm.trans_lt (Real.arctan_strictMono h)

theorem arctan_le_self {t : ℝ} (h : 0 ≤ t) : Real.arctan t ≤ t := by
  have h1 := Real.le_tan (arctan_nonneg h) (Real.arctan_lt_pi_div_two t)
  rwa [Real.tan_arctan] at h1

theorem atan2_pos_x {y x : ℝ} (hx : 0 < x) : atan2 y x = Real.arctan (y / x) :=
  if_pos hx

theorem atan2_neg_x_nonneg {y x : ℝ} (hx : x < 0) (hy : 0 ≤ y) :
    atan2 y x = Real.arctan (y / x) + Real.pi := by
  unfold atan2
  rw [if_neg (by linarith), if_pos ⟨hx, hy⟩]

theorem atan2_neg_x_neg {y x : ℝ} (hx : x < 0) (hy : y < 0) :
    atan2 y x = Real.arctan (y / x) - Real.pi := by
  unfold atan2
  rw [if_neg (by linarith), if_neg (by rintro ⟨-, h⟩; linarith), if_pos hx]

theorem atan2_zero_x_pos_y {y : ℝ} (hy : 0 < y) : atan2 y 0 = Real.pi / 2 := by
  unfold atan2
  rw [if_neg (by linarith), if_neg (by rintro ⟨h, -⟩; exact absurd h (lt_irrefl 0)),
    if_neg (lt_irrefl 0), if_pos hy]

theorem atan2_zero_x_neg_y {y : ℝ} (hy : y < 0) : atan2 y 0 = -(Real.pi / 2) := by
  unfold atan2
  rw [if_neg (by linarith), if_neg (by rintro ⟨h, -⟩; exact absurd h (lt_irrefl 0)),
    if_neg (lt_irrefl 0), if_neg (by linarith), if_pos hy]

theorem atan2_zero_zero : atan2 0 0 = 0 := by
  unfold atan2
  rw [if_neg (lt_irrefl 0), if_neg (by rintro ⟨h, -⟩; exact absurd h (lt_irrefl 0)),
    if_neg (lt_irrefl 0), if_neg (lt_irrefl 0), if_neg (lt_irrefl 0)]

theorem atan2_mem_Ioc (y x : ℝ) : -Real.pi < atan2 y x ∧ atan2 y x ≤ Real.pi := by
  have hpi := Real.pi_pos
  rcases lt_trichotomy 0 x with hx | hx | hx
  · rw [atan2_pos_x hx]
    have h1 := Real.neg_pi_div_two_lt_arctan (y / x)
    have h2 := Real.arctan_lt_pi_div_two (y / x)
    constructor <;> linarith
  · rcases lt_trichotomy 0 y with hy | hy | hy
    · rw [← hx, atan2_zero_x_pos_y hy]; constructor <;> linarith
    · rw [← hx, ← hy, atan2_zero_zero]; constructor <;> linarith
    · rw [← hx, atan2_zero_x_neg_y hy]; constructor <;> linarith
  · rcases le_or_lt 0 y with hy | hy
    · rw [atan2_neg_x_nonneg hx hy]
      have h3 : Real.arctan (y / x) ≤ 0 :=
      arctan_nonpos (div_nonpos_iff.mpr (Or.inl ⟨hy, hx.le⟩))
      have h4 := Real.neg_pi_div_two_lt_arctan (y / x)
      constructor <;> linarith
    · rw [atan2_neg_x_neg hx hy]
      have h5 : 0 < Real.arctan (y / x) := arctan_pos_of_pos (div_pos_of_neg_of_neg hy hx)
      have h6 := Real.arctan_lt_pi_div_two (y / x)
      constructor <;> linarith

theorem sqrt_one_add_div_sq {x y : ℝ} (hx : x ≠ 0) (hx2 : 0 < x) :
    Real.sqrt (1 + (y / x) ^ 2) = Real.sqrt (x ^ 2 + y ^ 2) / x := by
  rw [show (1 + (y / x) ^ 2) = (x ^ 2 + y ^ 2) / x ^ 2 by field_simp]
  rw [Real.sqrt_div (by positivity), Real.sqrt_sq hx2.le]

theorem sqrt_one_add_div_sq_neg {x y : ℝ} (hx2 : x < 0) :
    Real.sqrt (1 + (y / x) ^ 2) = Real.sqrt (x ^ 2 + y ^ 2) / (-x) := by
  have hne : x ≠ 0 := hx2.ne
  rw [show (1 + (y / x) ^ 2) = (x ^ 2 + y ^ 2) / (-x) ^ 2 by field_simp]
  rw [Real.sqrt_div (by positivity), Real.sqrt_sq (by linarith)]

theorem atan2_proj (y x : ℝ) :
    x * Real.cos (atan2 y x) + y * Real.sin (atan2 y x) = Real.sqrt (x ^ 2 + y ^ 2) := by
  have hr0 : (0 : ℝ) ≤ Real.sqrt (x ^ 2 + y ^ 2) := Real.sqrt_nonneg _
  have hr2 : Real.sqrt (x ^ 2 + y ^ 2) ^ 2 = x ^ 2 + y ^ 2 := Real.sq_sqrt (by positivity)
  rcases lt_trichotomy 0 x with hx | hx | hx
  · have hrpos : 0 < Real.sqrt (x ^ 2 + y ^ 2) :=
      Real.sqrt_pos.mpr (by nlinarith)
    rw [atan2_pos_x hx, Real.cos_arctan, Real.sin_arctan, sqrt_one_add_div_sq hx.ne' hx]
    field_simp
    ring
  · rcases lt_trichotomy 0 y with hy | hy | hy
    · rw [← hx, atan2_zero_x_pos_y hy, Real.cos_pi_div_two, Real.sin_pi_div_two]
      rw [show (0 : ℝ) ^ 2 + y ^ 2 = y ^ 2 by ring, Real.sqrt_sq hy.le]
      ring
    · rw [← hx, ← hy]
      simp [atan2_zero_zero]
    · rw [← hx, atan2_zero_x_neg_y hy, Real.cos_neg, Real.sin_neg, Real.cos_pi_div_two,
        Real.sin_pi_div_two]
      rw [show (0 : ℝ) ^ 2 + y ^ 2 = y ^ 2 by ring,
        show y ^ 2 = (-y) ^ 2 by ring, Real.sqrt_sq (by linarith)]
      ring
  · have hrpos : 0 < Real.sqrt (x ^ 2 + y ^ 2) :=
      Real.sqrt_pos.mpr (by nlinarith)
    have hxne : x ≠ 0 := hx.ne
    rcases le_or_lt 0 y with hy | hy
    · rw [atan2_neg_x_nonneg hx hy, Real.cos_add_pi, Real.sin_add_pi, Real.cos_arctan,
        Real.sin_arctan, sqrt_one_add_div_sq_neg hx]
      field_simp
      linear_combination (-(x * Real.sqrt (x ^ 2 + y ^ 2))) * hr2
    · rw [atan2_neg_x_neg hx hy, Real.cos_sub_pi, Real.sin_sub_pi, Real.cos_arctan,
        Real.sin_arctan, sqrt_one_add_div_sq_neg hx]
      field_simp
      linear_combination (-(x * Real.sqrt (x ^ 2 + y ^ 2))) * hr2

theorem cos_pos_range {θ : ℝ} (h1 : -Real.pi < θ) (h2 : θ ≤ Real.pi)
    (hc : 0 < Real.cos θ) : -(Real.pi / 2) < θ ∧ θ < Real.pi / 2 := by
  have hpi := Real.pi_pos
  constructor
  · by_contra h
    push_neg at h
    have hm : Real.cos (-θ) ≤ 0 :=
      Real.cos_nonpos_of_pi_div_two_le_of_le (by linarith) (by linarith)
    rw [Real.cos_neg] at hm
    linarith
  · by_contra h
    push_neg at h
    have hm : Real.cos θ ≤ 0 :=
      Real.cos_nonpos_of_pi_div_two_le_of_le (by linarith) (by linarith)
    linarith

theorem atan2_polar {θ r : ℝ} (hr : 0 < r) (h1 : -Real.pi < θ) (h2 : θ ≤ Real.pi) :
    atan2 (r * Real.sin θ) (r * Real.cos θ) = θ := by
  have hpi := Real.pi_pos
  have hdiv : r * Real.sin θ / (r * Real.cos θ) = Real.tan θ := by
    rw [mul_div_mul_left _ _ hr.ne', Real.tan_eq_sin_div_cos]
  rcases lt_trichotomy 0 (Real.cos θ) with hc | hc | hc
  · have hx : 0 < r * Real.cos θ := mul_pos hr hc
    obtain ⟨hb1, hb2⟩ := cos_pos_range h1 h2 hc
    rw [atan2_pos_x hx, hdiv, Real.arctan_tan hb1 hb2]
  · rcases lt_trichotomy 0 (Real.sin θ) with hs | hs | hs
    · have hth : θ = Real.pi / 2 := by
        rcases Real.cos_eq_zero_iff.mp hc.symm with ⟨k, hk⟩
        have hk0 : k = 0 := by
          rcases lt_trichotomy k 0 with hkk | hkk | hkk
          · exfalso
            have hkr : (k : ℝ) ≤ -1 := by exact_mod_cast Int.le_sub_one_of_lt hkk
            have hθle : θ ≤ -(Real.pi / 2) := by nlinarith [hk]
            have hneg : Real.sin θ < 0 :=
              Real.sin_neg_of_neg_of_neg_pi_lt (by linarith) h1
            linarith
          · exact hkk
          · exfalso
            have hkr : (1 : ℝ) ≤ (k : ℝ) := by exact_mod_cast hkk
            have hθge : 3 * Real.pi / 2 ≤ θ := by nlinarith [hk]
            linarith
        rw [hk, hk0]
        push_cast
        ring
      subst hth
      rw [Real.sin_pi_div_two, Real.cos_pi_div_two, mul_zero, mul_one]
      exact atan2_zero_x_pos_y hr
    · exfalso
      have h01 : Real.sin θ ^ 2 + Real.cos θ ^ 2 = 1 := Real.sin_sq_add_cos_sq θ
      rw [← hs, ← hc] at h01
      norm_num at h01
    · have hth : θ = -(Real.pi / 2) := by
        rcases Real.cos_eq_zero_iff.mp hc.symm with ⟨k, hk⟩
        have hk0 : k = -1 := by
          rcases lt_trichotomy k (-1) with hkk | hkk | hkk
          · exfalso
            have hkr : (k : ℝ) ≤ -2 := by exact_mod_cast Int.le_sub_one_of_lt hkk
            have hθle : θ ≤ -(3 * Real.pi / 2) := by nlinarith [hk]
            linarith
          · exact hkk
          · exfalso
            have hkr : (0 : ℝ) ≤ (k : ℝ) := by exact_mod_cast hkk
            have hθge : Real.pi / 2 ≤ θ := by nlinarith [hk]
            have hsin : 0 ≤ Real.sin θ :=
              Real.sin_nonneg_of_nonneg_of_le_pi (by linarith) h2
            linarith
        rw [hk, hk0]
        push_cast
        ring
      subst hth
      rw [Real.sin_neg, Real.sin_pi_div_two, Real.cos_neg, Real.cos_pi_div_two,
        mul_zero, mul_neg_one]
      exact atan2_zero_x_neg_y (by linarith)
  · have hx : r * Real.cos θ < 0 := mul_neg_of_pos_of_neg hr hc
    rcases le_or_lt 0 (Real.sin θ) with hs | hs
    · have hy : 0 ≤ r * Real.sin θ := mul_nonneg hr.le hs
      have hgt : Real.pi / 2 < θ := by
        by_contra h
        push_neg at h
        rcases le_or_lt (-(Real.pi / 2)) θ with h3 | h3
        · have := Real.cos_nonneg_of_mem_Icc (Set.mem_Icc.mpr ⟨h3, h⟩)
          linarith
        · have : Real.sin θ < 0 := Real.sin_neg_of_neg_of_neg_pi_lt (by linarith) h1
          linarith
      have htan : Real.tan (θ - Real.pi) = Real.tan θ := Real.tan_periodic.sub_eq θ
      rw [atan2_neg_x_nonneg hx hy, hdiv, ← htan,
        Real.arctan_tan (by linarith) (by linarith)]
      ring
    · have hy : r * Real.sin θ < 0 := mul_neg_of_pos_of_neg hr hs
      have hlt : θ < -(Real.pi / 2) := by
        by_contra h
        push_neg at h
        rcases le_or_lt θ (Real.pi / 2) with h3 | h3
        · have := Real.cos_nonneg_of_mem_Icc (Set.mem_Icc.mpr ⟨h, h3⟩)
          linarith
        · have : 0 ≤ Real.sin θ := Real.sin_nonneg_of_nonneg_of_le_pi (by linarith) h2
          linarith
      have htan : Real.tan (θ + Real.pi) = Real.tan θ := Real.tan_periodic θ
      rw [atan2_neg_x_neg hx hy, hdiv, ← htan,
        Real.arctan_tan (by linarith) (by linarith)]
      ring

theorem inHull_quad {p0 p1 p2 p3 : Point} {w0 w1 w2 w3 X Y : ℝ}
    (h0 : 0 ≤ w0) (h1 : 0 ≤ w1) (h2 : 0 ≤ w2) (h3 : 0 ≤ w3)
    (hs : w0 + w1 + w2 + w3 = 1)
    (hx : w0 * p0.x + w1 * p1.x + w2 * p2.x + w3 * p3.x = X)
    (hy : w0 * p0.y + w1 * p1.y + w2 * p2.y + w3 * p3.y = Y) :
    inHull (X, Y) [p0, p1, p2, p3] := by
  refine ⟨[w0, w1, w2, w3], rfl, ?_, by simpa using by linarith, ?_, ?_⟩
  · intro c hc
    simp only [List.mem_cons, List.not_mem_nil, or_false] at hc
    rcases hc with rfl | rfl | rfl | rfl <;> assumption
  · simpa using by linarith
  · simpa using by linarith

/-! ### The consolidation loop: scan order and fuel facts -/

theorem findJ_some_lt {crit : BoundingBox → BoundingBox → Prop}
    {a : TextAnnotation} {l : List TextAnnotation} {j : ℕ}
    (h : findJ crit a l = some j) : j < l.length := by
  induction l generalizing j with
  | nil => simp [findJ] at h
  | cons b rest ih =>
    rw [findJ] at h
    split_ifs at h with hc
    · cases h
      simp
    · cases hr : findJ crit a rest with
      | none => rw [hr] at h; simp at h
      | some m =>
        rw [hr] at h
        simp only [Option.map_some', Option.some.injEq] at h
        have := ih hr
        simp only [List.length_cons]
        omega

theorem findJ_some_crit {crit : BoundingBox → BoundingBox → Prop}
    {a : TextAnnotation} {l : List TextAnnotation} {j : ℕ}
    (h : findJ crit a l = some j) :
    crit a.bounding_poly ((l.getD j default).bounding_poly) := by
  induction l generalizing j with
  | nil => simp [findJ] at h
  | cons b rest ih =>
    rw [findJ] at h
    split_ifs at h with hc
    · cases h
      simpa using hc
    · cases hr : findJ crit a rest with
      | none => rw [hr] at h; simp at h
      | some m =>
        rw [hr] at h
        simp only [Option.map_some', Option.some.injEq] at h
        subst h
        simpa using ih hr

theorem findJ_some_min {crit : BoundingBox → BoundingBox → Prop}
    {a : TextAnnotation} {l : List TextAnnotation} {j : ℕ}
    (h : findJ crit a l = some j) :
    ∀ k, k < j → ¬ crit a.bounding_poly ((l.getD k default).bounding_poly) := by
  induction l generalizing j with
  | nil => simp [findJ] at h
  | cons b rest ih =>
    rw [findJ] at h
    split_ifs at h with hc
    · cases h
      omega
    · cases hr : findJ crit a rest with
      | none => rw [hr] at h; simp at h
      | some m =>
        rw [hr] at h
        simp only [Option.map_some', Option.some.injEq] at h
        subst h
        intro k hk
        match k with
        | 0 => simpa using hc
        | k + 1 =>
          rw [List.getD_cons_succ]
          exact ih hr k (by omega)

theorem findJ_none {crit : BoundingBox → BoundingBox → Prop}
    {a : TextAnnotation} {l : List TextAnnotation}
    (h : findJ crit a l = none) :
    ∀ k, k < l.length → ¬ crit a.bounding_poly ((l.getD k default).bounding_poly) := by
  induction l with
  | nil => intro k hk; simp at hk
  | cons b rest ih =>
    have hc : ¬ crit a.bounding_poly b.bounding_poly := by
      intro hcc
      rw [findJ, if_pos hcc] at h
      simp at h
    rw [findJ, if_neg hc] at h
    have hr : findJ crit a rest = none := by
      cases hr : findJ crit a rest with
      | none => rfl
      | some m => rw [hr] at h; simp at h
    intro k hk
    match k with
    | 0 => simpa using hc
    | k + 1 =>
      rw [List.getD_cons_succ]
      exact ih hr k (by simpa using hk)

theorem findPair_some_spec {crit : BoundingBox → BoundingBox → Prop}
    {l : List TextAnnotation} {i j : ℕ}
    (h : findPair crit l = some (i, j)) :
    i < j ∧ j < l.length ∧
      crit ((l.getD i default).bounding_poly) ((l.getD j default).bounding_poly) ∧
      ∀ i2 j2, i2 < j2 → j2 < l.length → (i2 < i ∨ (i2 = i ∧ j2 < j)) →
        ¬ crit ((l.getD i2 default).bounding_poly) ((l.getD j2 default).bounding_poly) := by
  induction l generalizing i j with
  | nil => simp [findPair] at h
  | cons a rest ih =>
    rw [findPair] at h
    cases hj : findJ crit a rest with
    | some j0 =>
      rw [hj] at h
      simp only [Option.some.injEq, Prod.mk.injEq] at h
      obtain ⟨rfl, rfl⟩ := h
      refine ⟨by omega, by simpa using Nat.succ_lt_succ (findJ_some_lt hj), ?_, ?_⟩
      · rw [List.getD_cons_zero, List.getD_cons_succ]
        exact findJ_some_crit hj
      · intro i2 j2 h12 hlen hlt
        rcases hlt with hlt | ⟨rfl, hlt⟩
        · omega
        · match j2, h12 with
          | j2 + 1, _ =>
            rw [List.getD_cons_zero, List.getD_cons_succ]
            exact findJ_some_min hj j2 (by omega)
    | none =>
      rw [hj] at h
      cases hp : findPair crit rest with
      | none => rw [hp] at h; simp at h
      | some ij =>
        rw [hp] at h
        obtain ⟨i0, j0⟩ := ij
        simp only [Option.map_some', Option.some.injEq, Prod.mk.injEq] at h
        obtain ⟨rfl, rfl⟩ := h
        obtain ⟨s1, s2, s3, s4⟩ := ih hp
        refine ⟨by omega, by simpa using Nat.succ_lt_succ s2, ?_, ?_⟩
        · rw [List.getD_cons_succ, List.getD_cons_succ]
          exact s3
        · intro i2 j2 h12 hlen hlt
          match i2 with
          | 0 =>
            match j2, h12 with
            | j2 + 1, _ =>
              rw [List.getD_cons_zero, List.getD_cons_succ]
              exact findJ_none hj j2 (by simpa using hlen)
          | i2 + 1 =>
            match j2, h12 with
            | j2 + 1, _ =>
              rw [List.getD_cons_succ, List.getD_cons_succ]
              exact s4 i2 j2 (by omega) (by simpa using hlen) (by omega)

theorem findPair_none {crit : BoundingBox → BoundingBox → Prop}
    {l : List TextAnnotation}
    (h : findPair crit l = none) :
    ∀ i j, i < j → j < l.length →
      ¬ crit ((l.getD i default).bounding_poly) ((l.getD j default).bounding_poly) := by
  induction l with
  | nil => intro i j _ hj; simp at hj
  | cons a rest ih =>
    rw [findPair] at h
    cases hj : findJ crit a rest with
    | some j0 => rw [hj] at h; simp at h
    | none =>
      rw [hj] at h
      have hp : findPair crit rest = none := by
        cases hp : findPair crit rest with
        | none => rfl
        | some ij => rw [hp] at h; simp at h
      intro i j hij hlen
      match i with
      | 0 =>
        match j, hij with
        | j + 1, _ =>
          rw [List.getD_cons_zero, List.getD_cons_succ]
          exact findJ_none hj j (by simpa using hlen)
      | i + 1 =>
        match j, hij with
        | j + 1, _ =>
          rw [List.getD_cons_succ, List.getD_cons_succ]
          exact ih hp i j (by omega) (by simpa using hlen)

theorem findPair_none_iff {crit : BoundingBox → BoundingBox → Prop}
    {l : List TextAnnotation} :
    findPair crit l = none ↔
      ∀ i j, i < j → j < l.length →
        ¬ crit ((l.getD i default).bounding_poly) ((l.getD j default).bounding_poly) := by
  constructor
  · exact findPair_none
  · intro hall
    cases hp : findPair crit l with
    | none => rfl
    | some ij =>
      obtain ⟨i, j⟩ := ij
      obtain ⟨s1, s2, s3, -⟩ := findPair_some_spec hp
      exact absurd s3 (hall i j s1 s2)

theorem spliceMerge_length {l : List TextAnnotation} {i j : ℕ}
    (hij : i < j) (hj : j < l.length) :
    (spliceMerge l i j).length = l.length - 1 := by
  simp only [spliceMerge, List.length_append, List.length_take, List.length_drop,
    List.length_cons, List.length_nil]
  omega

theorem mbwcAux_of_none {crit : BoundingBox → BoundingBox → Prop}
    {anns : List TextAnnotation} (h : findPair crit anns = none) :
    ∀ n, mbwcAux crit n anns = anns := by
  intro n
  cases n with
  | zero => rfl
  | succ n => rw [mbwcAux, h]

theorem mbwcAux_succ_some {crit : BoundingBox → BoundingBox → Prop}
    {anns : List TextAnnotation} {i j n : ℕ}
    (h : findPair crit anns = some (i, j)) :
    mbwcAux crit (n + 1) anns = mbwcAux crit n (spliceMerge anns i j) := by
  rw [mbwcAux, h]

theorem mergeCountAux_succ_some {crit : BoundingBox → BoundingBox → Prop}
    {anns : List TextAnnotation} {i j n : ℕ}
    (h : findPair crit anns = some (i, j)) :
    mergeCountAux crit (n + 1) anns = mergeCountAux crit n (spliceMerge anns i j) + 1 := by
  rw [mergeCountAux, h]

theorem mergeCountAux_succ_none {crit : BoundingBox → BoundingBox → Prop}
    {anns : List TextAnnotation} {n : ℕ}
    (h : findPair crit anns = none) :
    mergeCountAux crit (n + 1) anns = 0 := by
  rw [mergeCountAux, h]

theorem mbwcAux_fix {crit : BoundingBox → BoundingBox → Prop} :
    ∀ (n : ℕ) (anns : List TextAnnotation), anns.length ≤ n →
      findPair crit (mbwcAux crit n anns) = none := by
  intro n
  induction n with
  | zero =>
    intro anns h
    have hnil : anns = [] := List.length_eq_zero.mp (by omega)
    subst hnil
    rfl
  | succ n ih =>
    intro anns h
    cases hp : findPair crit anns with
    | none => rw [mbwcAux_of_none hp]; exact hp
    | some ij =>
      obtain ⟨i, j⟩ := ij
      obtain ⟨s1, s2, -, -⟩ := findPair_some_spec hp
      rw [mbwcAux_succ_some hp]
      exact ih _ (by rw [spliceMerge_length s1 s2]; omega)

theorem mbwc_eq_of_none {crit : BoundingBox → BoundingBox → Prop}
    {anns : List TextAnnotation} (h : findPair crit anns = none) :
    merge_boxes_with_criteria crit anns = anns :=
  mbwcAux_of_none h _

theorem mbwc_eq_of_some {crit : BoundingBox → BoundingBox → Prop}
    {anns : List TextAnnotation} {i j : ℕ}
    (h : findPair crit anns = some (i, j)) :
    merge_boxes_with_criteria crit anns =
      merge_boxes_with_criteria crit (spliceMerge anns i j) := by
  obtain ⟨s1, s2, -, -⟩ := findPair_some_spec h
  obtain ⟨m, hm⟩ : ∃ m, anns.length = m + 1 := ⟨anns.length - 1, by omega⟩
  unfold merge_boxes_with_criteria
  rw [spliceMerge_length s1 s2, hm]
  simp only [Nat.add_sub_cancel]
  exact mbwcAux_succ_some h

theorem mbwc_fix {crit : BoundingBox → BoundingBox → Prop}
    (anns : List TextAnnotation) :
    findPair crit (merge_boxes_with_criteria crit anns) = none :=
  mbwcAux_fix _ _ le_rfl

theorem mbwc_idem {crit : BoundingBox → BoundingBox → Prop}
    (anns : List TextAnnotation) :
    merge_boxes_with_criteria crit (merge_boxes_with_criteria crit anns) =
      merge_boxes_with_criteria crit anns :=
  mbwc_eq_of_none (mbwc_fix anns)

theorem mbwcAux_count {crit : BoundingBox → BoundingBox → Prop} :
    ∀ (n : ℕ) (anns : List TextAnnotation), anns.length ≤ n →
      mergeCountAux crit n anns + (mbwcAux crit n anns).length = anns.length := by
  intro n
  induction n with
  | zero =>
    intro anns h
    have hnil : anns = [] := List.length_eq_zero.mp (by omega)
    subst hnil
    rfl
  | succ n ih =>
    intro anns h
    cases hp : findPair crit anns with
    | none => rw [mbwcAux_of_none hp, mergeCountAux_succ_none hp]; simp
    | some ij =>
      obtain ⟨i, j⟩ := ij
      obtain ⟨s1, s2, -, -⟩ := findPair_some_spec hp
      rw [mbwcAux_succ_some hp, mergeCountAux_succ_some hp]
      have hlen := spliceMerge_length s1 s2
      have := ih (spliceMerge anns i j) (by omega)
      omega

theorem mbwcAux_length_pos {crit : BoundingBox → BoundingBox → Prop} :
    ∀ (n : ℕ) (anns : List TextAnnotation), anns ≠ [] →
      0 < (mbwcAux crit n anns).length := by
  intro n
  induction n with
  | zero =>
    intro anns h
    exact List.length_pos.mpr h
  | succ n ih =>
    intro anns h
    cases hp : findPair crit anns with
    | none =>
      rw [mbwcAux_of_none hp]
      exact List.length_pos.mpr h
    | some ij =>
      obtain ⟨i, j⟩ := ij
      obtain ⟨s1, s2, -, -⟩ := findPair_some_spec hp
      rw [mbwcAux_succ_some hp]
      apply ih
      simp [spliceMerge]

/-! ### Gate characterisations of the two predicates -/

theorem listMin_le_listMax (l : List ℝ) : listMin l ≤ listMax l := by
  cases l with
  | nil => exact le_refl 0
  | cons x xs => exact (foldl_min_le_init xs x).trans (init_le_foldl_max xs x)

theorem boxes_overlap_iff (box1 box2 : BoundingBox) :
    boxes_overlap box1 box2 ↔
      angleGate box1 box2 ∧ overlapCenterGate box1 box2 ∧ polyIntersects box1 box2 := by
  simp only [boxes_overlap, angleGate, overlapCenterGate]
  split_ifs with h1 h2
  · exact iff_of_false not_false (fun c => absurd c.1 (not_le.mpr h1))
  · exact iff_of_false not_false (fun c => absurd c.2.1 (not_le.mpr h2))
  · exact ⟨fun hI => ⟨not_lt.mp h1, not_lt.mp h2, hI⟩, fun c => c.2.2⟩

theorem boxes_vertically_aligned_iff (box1 box2 : BoundingBox) :
    boxes_vertically_aligned box1 box2 ↔
      angleGate box1 box2 ∧ alignedVerticalGate box1 box2 ∧ alignedGapGate box1 box2 := by
  simp only [boxes_vertically_aligned, angleGate, alignedVerticalGate, alignedGapGate]
  split_ifs with h1 h2
  · exact iff_of_false not_false (fun c => absurd c.1 (not_le.mpr h1))
  · exact iff_of_false not_false (fun c => absurd c.2.1 (not_le.mpr h2))
  · exact ⟨fun hI => ⟨not_lt.mp h1, le_of_not_lt h2, hI⟩, fun c => c.2.2⟩

/-! ### C1: the merged-description decision rule -/

/-- C1: `merge_boxes` chooses the merged description by the first matching
rule in order: if either box's containment ratio (exact intersection area
over that box's own polygon area, zero on zero area) exceeds 0.95, the
description of the input with the larger rectangle-model area wins (ties
keep the first operand); otherwise if the grid-estimated IoU exceeds 0.5,
the longer description wins (ties keep the first operand); otherwise the two
descriptions are concatenated with a single space, the first operand's first
exactly when its centre x-coordinate is at most the second's. -/
theorem C1_merge_boxes_description_rule (ann1 ann2 : TextAnnotation) :
    (merge_boxes ann1 ann2).description =
      if (if shoelaceArea ann1.bounding_poly.vertices > 0 then
            intersectionArea ann1.bounding_poly ann2.bounding_poly /
              shoelaceArea ann1.bounding_poly.vertices
          else 0) > 0.95 ∨
          (if shoelaceArea ann2.bounding_poly.vertices > 0 then
            intersectionArea ann1.bounding_poly ann2.bounding_poly /
              shoelaceArea ann2.bounding_poly.vertices
          else 0) > 0.95 then
        if ann1.bounding_poly.area ≥ ann2.bounding_poly.area then ann1.description
        else ann2.description
      else if calculate_iou ann1.bounding_poly ann2.bounding_poly > 0.5 then
        if ann1.description.length ≥ ann2.description.length then ann1.description
        else ann2.description
      else if ann1.bounding_poly.center.x ≤ ann2.bounding_poly.center.x then
        ann1.description ++ " " ++ ann2.description
      else ann2.description ++ " " ++ ann1.description := by
  rfl

/-! ### C3: gates of the overlap predicate -/

/-- C3: `boxes_overlap` holds exactly when all three gates pass — the
normalized angular difference is at most 5 degrees, the vertical
displacement of box 2's centre in the average-angle frame is at most half
the smaller height, and the zero-expansion polygons intersect; in
particular, two boxes whose normalized angular difference is 90 degrees
never overlap, regardless of position. -/
theorem C3_boxes_overlap_gates :
    (∀ box1 box2 : BoundingBox,
      boxes_overlap box1 box2 ↔
        angleGate box1 box2 ∧ overlapCenterGate box1 box2 ∧ polyIntersects box1 box2) ∧
    (∀ box1 box2 : BoundingBox,
      min |box1.angle - box2.angle| (2 * Real.pi - |box1.angle - box2.angle|) =
          Real.pi / 2 →
        ¬ boxes_overlap box1 box2) := by
  refine ⟨boxes_overlap_iff, ?_⟩
  intro box1 box2 h hov
  have hg := ((boxes_overlap_iff box1 box2).mp hov).1
  unfold angleGate at hg
  rw [h] at hg
  have hdeg : degrees (Real.pi / 2) = 90 := by
    unfold degrees
    field_simp
    ring
  rw [hdeg] at hg
  norm_num at hg

theorem boxR0_angle : boxR0.angle = 0 := by
  have h : boxR0.angle = atan2 0 10 := by
    simp [BoundingBox.angle, BoundingBox.vtx, boxR0]
  rw [h, atan2_pos_x (by norm_num : (0 : ℝ) < 10)]
  simp

theorem boxR90_angle : boxR90.angle = Real.pi / 2 := by
  have h : boxR90.angle = atan2 10 0 := by
    simp [BoundingBox.angle, BoundingBox.vtx, boxR90]
  rw [h, atan2_zero_x_pos_y (by norm_num : (0 : ℝ) < 10)]

/-- Witness for C3: two concrete squares whose first edges are 90° apart are
rejected by `boxes_overlap` even though they coincide spatially. -/
theorem C3_boxes_overlap_gates_witness :
    min |boxR0.angle - boxR90.angle| (2 * Real.pi - |boxR0.angle - boxR90.angle|) =
        Real.pi / 2 ∧
      ¬ boxes_overlap boxR0 boxR90 := by
  have hd : min |boxR0.angle - boxR90.angle|
      (2 * Real.pi - |boxR0.angle - boxR90.angle|) = Real.pi / 2 := by
    rw [boxR0_angle, boxR90_angle, abs_sub_comm, sub_zero,
      abs_of_nonneg (by positivity)]
    exact min_eq_left (by linarith [Real.pi_pos])
  exact ⟨hd, C3_boxes_overlap_gates.2 boxR0 boxR90 hd⟩

/-! ### C4: gates of the adjacency predicate -/

/-- C4: `boxes_vertically_aligned` holds exactly when the angular gate
passes, the rotated-frame vertical overlap is at least half the smaller
rotated height, and the rotated-frame horizontal gap is strictly less than
half the average rotated height; in particular two same-orientation boxes
whose rotated vertical spans are disjoint never satisfy it. -/
theorem C4_boxes_vertically_aligned_gates :
    (∀ box1 box2 : BoundingBox,
      boxes_vertically_aligned box1 box2 ↔
        angleGate box1 box2 ∧ alignedVerticalGate box1 box2 ∧ alignedGapGate box1 box2) ∧
    (∀ box1 box2 : BoundingBox, box1.angle = box2.angle →
      (frameMaxY box1 box1 < frameMinY box1 box2 ∨
        frameMaxY box1 box2 < frameMinY box1 box1) →
      ¬ boxes_vertically_aligned box1 box2) := by
  refine ⟨boxes_vertically_aligned_iff, ?_⟩
  intro box1 box2 _ hdisj hal
  have hg := ((boxes_vertically_aligned_iff box1 box2).mp hal).2.1
  unfold alignedVerticalGate at hg
  have h11 : frameMinY box1 box1 ≤ frameMaxY box1 box1 := listMin_le_listMax _
  have h22 : frameMinY box1 box2 ≤ frameMaxY box1 box2 := listMin_le_listMax _
  have hmin0 : (0 : ℝ) ≤
      min (frameMaxY box1 box1 - frameMinY box1 box1)
        (frameMaxY box1 box2 - frameMinY box1 box2) * (1 / 2) := by
    have := le_min (by linarith : (0 : ℝ) ≤ frameMaxY box1 box1 - frameMinY box1 box1)
      (by linarith : (0 : ℝ) ≤ frameMaxY box1 box2 - frameMinY box1 box2)
    linarith
  rcases hdisj with hd | hd
  · have hm1 : min (frameMaxY box1 box1) (frameMaxY box1 box2) ≤ frameMaxY box1 box1 :=
      min_le_left _ _
    have hm2 : frameMinY box1 box2 ≤ max (frameMinY box1 box1) (frameMinY box1 box2) :=
      le_max_right _ _
    linarith
  · have hm1 : min (frameMaxY box1 box1) (frameMaxY box1 box2) ≤ frameMaxY box1 box2 :=
      min_le_right _ _
    have hm2 : frameMinY box1 box1 ≤ max (frameMinY box1 box1) (frameMinY box1 box2) :=
      le_max_left _ _
    linarith

theorem boxLow_angle : boxLow.angle = 0 := by
  have h : boxLow.angle = atan2 0 50 := by
    simp [BoundingBox.angle, BoundingBox.vtx, boxLow]
  rw [h, atan2_pos_x (by norm_num : (0 : ℝ) < 50)]
  simp

theorem boxHigh_angle : boxHigh.angle = 0 := by
  have h : boxHigh.angle = atan2 0 50 := by
    simp [BoundingBox.angle, BoundingBox.vtx, boxHigh]
  rw [h, atan2_pos_x (by norm_num : (0 : ℝ) < 50)]
  simp

theorem frameMaxY_low_low : frameMaxY boxLow boxLow = 15 := by
  unfold frameMaxY rotInFrame1
  rw [boxLow_angle]
  simp [rotateVerts, boxLow, BoundingBox.center, listMax, List.foldl]
  norm_num [max_def]

theorem frameMinY_low_high : frameMinY boxLow boxHigh = 85 := by
  unfold frameMinY rotInFrame1
  rw [boxLow_angle]
  simp [rotateVerts, boxLow, boxHigh, BoundingBox.center, listMin, List.foldl]
  norm_num [min_def]

/-- Witness for C4: the spec's concrete example — axis-aligned boxes with
vertical spans [0, 30] and [100, 130] are never vertically aligned. -/
theorem C4_boxes_vertically_aligned_gates_witness :
    boxLow.angle = boxHigh.angle ∧
      (frameMaxY boxLow boxLow < frameMinY boxLow boxHigh ∨
        frameMaxY boxLow boxHigh < frameMinY boxLow boxLow) ∧
      ¬ boxes_vertically_aligned boxLow boxHigh := by
  have ha : boxLow.angle = boxHigh.angle := by rw [boxLow_angle, boxHigh_angle]
  have hd : frameMaxY boxLow boxLow < frameMinY boxLow boxHigh := by
    rw [frameMaxY_low_low, frameMinY_low_high]
    norm_num
  exact ⟨ha, Or.inl hd,
    C4_boxes_vertically_aligned_gates.2 boxLow boxHigh ha (Or.inl hd)⟩

/-! ### C2: structure of a consolidation pass -/

/-- C2: each pass scans ordered pairs (i, j) with i < j in row-major order —
`findPair` returns `none` exactly when no pair satisfies the predicate, and
otherwise returns the row-major-first satisfying pair; on a match the pass
removes both elements, appends their merge at the end (`spliceMerge`), and
restarts the scan; and `clean_text_annotations` runs one pass with
`boxes_overlap` and then one pass with `boxes_vertically_aligned` on that
result, returning the second pass's output. -/
theorem C2_consolidation_pass_structure :
    (∀ (crit : BoundingBox → BoundingBox → Prop) (anns : List TextAnnotation),
      findPair crit anns = none ↔
        ∀ i j, i < j → j < anns.length →
          ¬ crit ((anns.getD i default).bounding_poly)
              ((anns.getD j default).bounding_poly)) ∧
    (∀ (crit : BoundingBox → BoundingBox → Prop) (anns : List TextAnnotation) (i j : ℕ),
      findPair crit anns = some (i, j) →
        i < j ∧ j < anns.length ∧
          crit ((anns.getD i default).bounding_poly)
            ((anns.getD j default).bounding_poly) ∧
          ∀ i2 j2, i2 < j2 → j2 < anns.length → (i2 < i ∨ (i2 = i ∧ j2 < j)) →
            ¬ crit ((anns.getD i2 default).bounding_poly)
                ((anns.getD j2 default).bounding_poly)) ∧
    (∀ (crit : BoundingBox → BoundingBox → Prop) (anns : List TextAnnotation),
      findPair crit anns = none → merge_boxes_with_criteria crit anns = anns) ∧
    (∀ (crit : BoundingBox → BoundingBox → Prop) (anns : List TextAnnotation) (i j : ℕ),
      findPair crit anns = some (i, j) →
        merge_boxes_with_criteria crit anns =
          merge_boxes_with_criteria crit (spliceMerge anns i j)) ∧
    (∀ anns : List TextAnnotation,
      clean_text_annotations anns =
        merge_boxes_with_criteria boxes_vertically_aligned
          (merge_boxes_with_criteria boxes_overlap anns)) := by
  refine ⟨fun crit anns => findPair_none_iff,
    fun crit anns i j h => findPair_some_spec h,
    fun crit anns h => mbwc_eq_of_none h,
    fun crit anns i j h => mbwc_eq_of_some h,
    fun anns => rfl⟩

/-- Witness for C2: on a concrete two-element list with the always-true
predicate, the first scanned pair (0, 1) is found and the loop steps to the
spliced list. -/
theorem C2_consolidation_pass_structure_witness :
    merge_boxes_with_criteria (fun _ _ => True) [(default : TextAnnotation), default] =
        merge_boxes_with_criteria (fun _ _ => True)
          (spliceMerge [(default : TextAnnotation), default] 0 1) ∧
      (0 : ℕ) < 1 ∧ 1 < ([(default : TextAnnotation), default]).length := by
  have hfp : findPair (fun _ _ => True) [(default : TextAnnotation), default] =
      some (0, 1) := by
    simp [findPair, findJ]
  obtain ⟨s1, s2, -, -⟩ := C2_consolidation_pass_structure.2.1 _ _ 0 1 hfp
  exact ⟨C2_consolidation_pass_structure.2.2.2.1 _ _ 0 1 hfp, s1, s2⟩

/-! ### C9: merges shrink the list; termination -/

/-- C9: every merge performed inside `merge_boxes_with_criteria` replaces
two annotations with one, so the spliced list is exactly one element
shorter; consequently a pass over n annotations performs at most n − 1
merges, the merge count plus the output length equals the input length, and
the loop reaches its fixed point (no pair of the output matches — the pass
terminates). -/
theorem C9_each_merge_shrinks_list :
    (∀ (crit : BoundingBox → BoundingBox → Prop) (anns : List TextAnnotation) (i j : ℕ),
      findPair crit anns = some (i, j) →
        (spliceMerge anns i j).length = anns.length - 1) ∧
    (∀ (crit : BoundingBox → BoundingBox → Prop) (anns : List TextAnnotation),
      mergeCount crit anns + (merge_boxes_with_criteria crit anns).length = anns.length) ∧
    (∀ (crit : BoundingBox → BoundingBox → Prop) (anns : List TextAnnotation),
      mergeCount crit anns ≤ anns.length - 1) ∧
    (∀ (crit : BoundingBox → BoundingBox → Prop) (anns : List TextAnnotation),
      findPair crit (merge_boxes_with_criteria crit anns) = none) := by
  refine ⟨?_, ?_, ?_, fun crit anns => mbwc_fix anns⟩
  · intro crit anns i j h
    obtain ⟨s1, s2, -, -⟩ := findPair_some_spec h
    exact spliceMerge_length s1 s2
  · intro crit anns
    exact mbwcAux_count _ _ le_rfl
  · intro crit anns
    rcases eq_or_ne anns [] with rfl | hne
    · simp [mergeCount, mergeCountAux]
    · have h1 := @mbwcAux_count crit anns.length anns le_rfl
      have h2 := @mbwcAux_length_pos crit anns.length anns hne
      unfold mergeCount
      unfold merge_boxes_with_criteria at h1
      omega

/-- Witness for C9: on a concrete two-element list the splice after the
first found pair has length one. -/
theorem C9_each_merge_shrinks_list_witness :
    (spliceMerge [(default : TextAnnotation), default] 0 1).length =
      ([(default : TextAnnotation), default]).length - 1 :=
  C9_each_merge_shrinks_list.1 (fun _ _ => True)
    [(default : TextAnnotation), default] 0 1 (by simp [findPair, findJ])

/-! ### C7: the IoU estimator -/

theorem iouGrid_comm (b1 b2 : BoundingBox) (i j : Fin 100) :
    iouGrid b1 b2 i j = iouGrid b2 b1 i j := by
  simp only [iouGrid]
  rw [min_comm (listMin (b1.vertices.map Point.x)) (listMin (b2.vertices.map Point.x)),
    max_comm (listMax (b1.vertices.map Point.x)) (listMax (b2.vertices.map Point.x)),
    min_comm (listMin (b1.vertices.map Point.y)) (listMin (b2.vertices.map Point.y)),
    max_comm (listMax (b1.vertices.map Point.y)) (listMax (b2.vertices.map Point.y))]

theorem iouInterCount_comm (b1 b2 : BoundingBox) :
    iouInterCount b1 b2 = iouInterCount b2 b1 := by
  unfold iouInterCount
  exact congrArg Finset.card (Finset.filter_congr fun x _ => by
    rw [iouGrid_comm b1 b2 x.1 x.2]
    exact and_comm)

theorem iouUnionCount_comm (b1 b2 : BoundingBox) :
    iouUnionCount b1 b2 = iouUnionCount b2 b1 := by
  unfold iouUnionCount
  exact congrArg Finset.card (Finset.filter_congr fun x _ => by
    rw [iouGrid_comm b1 b2 x.1 x.2]
    exact or_comm)

theorem iouInterCount_le_union (b1 b2 : BoundingBox) :
    iouInterCount b1 b2 ≤ iouUnionCount b1 b2 := by
  apply Finset.card_le_card
  intro x hx
  rw [Finset.mem_filter] at hx ⊢
  exact ⟨hx.1, Or.inl hx.2.1⟩

/-- C7: `calculate_iou` is symmetric in its two arguments, always lies in
[0, 1], returns 0 when no grid sample point falls inside either polygon
(no division-by-zero fault), and returns exactly 1 on identical inputs
whenever at least one grid point lies inside the box (the grid-resolution
proviso of the claim). -/
theorem C7_calculate_iou_properties :
    (∀ b1 b2 : BoundingBox, calculate_iou b1 b2 = calculate_iou b2 b1) ∧
    (∀ b1 b2 : BoundingBox, 0 ≤ calculate_iou b1 b2 ∧ calculate_iou b1 b2 ≤ 1) ∧
    (∀ b1 b2 : BoundingBox, iouUnionCount b1 b2 = 0 → calculate_iou b1 b2 = 0) ∧
    (∀ b : BoundingBox, 0 < iouUnionCount b b → calculate_iou b b = 1) := by
  refine ⟨?_, ?_, ?_, ?_⟩
  · intro b1 b2
    unfold calculate_iou
    rw [iouInterCount_comm, iouUnionCount_comm]
  · intro b1 b2
    unfold calculate_iou
    split_ifs with h
    · constructor
      · positivity
      · rw [div_le_one (by exact_mod_cast h)]
        exact_mod_cast iouInterCount_le_union b1 b2
    · norm_num
  · intro b1 b2 h
    unfold calculate_iou
    rw [if_neg (by omega)]
  · intro b h
    unfold calculate_iou
    rw [if_pos h]
    have hiu : iouInterCount b b = iouUnionCount b b := by
      unfold iouInterCount iouUnionCount
      exact congrArg Finset.card (Finset.filter_congr fun x _ => by
        constructor
        · intro hx
          exact Or.inl hx.1
        · intro hx
          rcases hx with hx | hx <;> exact ⟨hx, hx⟩)
    rw [hiu, div_self (by exact_mod_cast h.ne')]

theorem sq_grid00 : iouGrid sqBox sqBox 0 0 = (0, 0) := by
  simp only [iouGrid]
  simp [sqBox, listMin, listMax, List.foldl, min_def, max_def]

theorem inHull_origin_sq : inHull (0, 0) sqBox.vertices :=
  @inHull_quad ⟨0, 0⟩ ⟨100, 0⟩ ⟨100, 100⟩ ⟨0, 100⟩ 1 0 0 0 0 0
    (by norm_num) (by norm_num) (by norm_num) (by norm_num)
    (by norm_num) (by norm_num) (by norm_num)

/-- Witness for C7: the 100×100 square has a grid point inside itself, so
its self-IoU is exactly 1; the degenerate vertex-free box has an empty grid
mask, and its IoU is 0 rather than a division fault. -/
theorem C7_calculate_iou_properties_witness :
    0 < iouUnionCount sqBox sqBox ∧ calculate_iou sqBox sqBox = 1 ∧
      iouUnionCount emptyBox emptyBox = 0 ∧ calculate_iou emptyBox emptyBox = 0 := by
  have hpos : 0 < iouUnionCount sqBox sqBox := by
    unfold iouUnionCount
    apply Finset.card_pos.mpr
    refine ⟨(0, 0), ?_⟩
    rw [Finset.mem_filter]
    exact ⟨Finset.mem_univ _, Or.inl (by rw [sq_grid00]; exact inHull_origin_sq)⟩
  have hz : iouUnionCount emptyBox emptyBox = 0 := by
    unfold iouUnionCount
    rw [Finset.card_eq_zero, Finset.filter_eq_empty_iff]
    intro x _
    rintro (hx | hx) <;> exact not_inHull_nil _ hx
  exact ⟨hpos, C7_calculate_iou_properties.2.2.2 sqBox hpos, hz,
    C7_calculate_iou_properties.2.2.1 emptyBox emptyBox hz⟩

/-! ### C8: construction-time validation -/

/-- Counterexample for C8: the `BoundingBox` dataclass performs no
construction-time validation — a one-vertex box is constructed silently,
its vertex list stored exactly as given, instead of an invalid-input error
being raised at construction time. -/
theorem C8_construction_not_validated_cex :
    ( BoundingBox.mk [Point.mk 0 0]).vertices.length = 1 ∧
      ( BoundingBox.mk [Point.mk 0 0]).vertices.length ≠ 4 :=
  ⟨rfl, by norm_num⟩

/-- C8 (amended): `BoundingBox` construction accepts any vertex list without
validation; the four-vertex invariant is enforced upstream instead —
`convert_raw_annotations_to_text_annotations` silently drops every detection
that does not resolve to exactly four points, so every annotation it
produces carries a four-vertex box. -/
theorem C8_upstream_filters_non_quads :
    (∀ ps : List Point, ( BoundingBox.mk ps).vertices = ps) ∧
    (∀ raws : List RawDetection,
      ∀ ta ∈ convert_raw_annotations_to_text_annotations raws,
        ta.bounding_poly.vertices.length = 4) := by
  refine ⟨fun ps => rfl, ?_⟩
  intro raws ta hta
  simp only [convert_raw_annotations_to_text_annotations, List.mem_filterMap] at hta
  obtain ⟨ann, -, hconv⟩ := hta
  split_ifs at hconv with hlen
  cases hconv
  simpa using hlen

/-- Witness for C8 (amended): a concrete conversion keeps exactly the
four-vertex detection, and the kept annotation has four vertices. -/
theorem C8_upstream_filters_non_quads_witness :
    ((convert_raw_annotations_to_text_annotations
        [⟨"image", []⟩,
         ⟨"word", [⟨some 1, some 2⟩, ⟨none, some 3⟩, ⟨some 4, none⟩, ⟨none, none⟩]⟩,
         ⟨"bad", [⟨some 0, some 0⟩]⟩]).getD 0 default).bounding_poly.vertices.length = 4 := by
  have hconv : convert_raw_annotations_to_text_annotations
      [⟨"image", []⟩,
       ⟨"word", [⟨some 1, some 2⟩, ⟨none, some 3⟩, ⟨some 4, none⟩, ⟨none, none⟩]⟩,
       ⟨"bad", [⟨some 0, some 0⟩]⟩] =
      [⟨"word", ⟨[⟨1, 2⟩, ⟨0, 3⟩, ⟨4, 0⟩, ⟨0, 0⟩]⟩⟩] := by
    simp [convert_raw_annotations_to_text_annotations]
  apply C8_upstream_filters_non_quads.2
  rw [hconv]
  exact List.mem_singleton.mpr rfl

/-! ### C10: non-empty descriptions -/

/-- Counterexample for C10: an annotation whose description is the empty
string passes through `clean_text_annotations` unchanged, so the engine does
not guarantee non-empty output descriptions for arbitrary input. -/
theorem C10_empty_description_cex :
    clean_text_annotations [emptyDescAnn] = [emptyDescAnn] ∧
      emptyDescAnn.description = "" := by
  constructor
  · unfold clean_text_annotations
    rw [mbwc_eq_of_none (by simp [findPair, findJ]),
      mbwc_eq_of_none (by simp [findPair, findJ])]
  · rfl

theorem merge_desc_ne_empty {a b : TextAnnotation}
    (ha : a.description ≠ "") (hb : b.description ≠ "") :
    (merge_boxes a b).description ≠ "" := by
  simp only [merge_boxes]
  split_ifs <;> first
    | exact ha
    | exact hb
    | (intro h
       have hlen := congrArg String.length h
       simp only [String.length_append] at hlen
       have h1 : (" ").length = 1 := rfl
       have h0 : ("").length = 0 := rfl
       omega)

theorem mbwcAux_desc_ne_empty {crit : BoundingBox → BoundingBox → Prop} :
    ∀ (n : ℕ) (anns : List TextAnnotation), (∀ a ∈ anns, a.description ≠ "") →
      ∀ b ∈ mbwcAux crit n anns, b.description ≠ "" := by
  intro n
  induction n with
  | zero => intro anns h; exact h
  | succ n ih =>
    intro anns h
    cases hp : findPair crit anns with
    | none => rw [mbwcAux_of_none hp]; exact h
    | some ij =>
      obtain ⟨i, j⟩ := ij
      obtain ⟨s1, s2, -, -⟩ := findPair_some_spec hp
      rw [mbwcAux_succ_some hp]
      apply ih
      intro a ha
      simp only [spliceMerge, List.mem_append, List.mem_singleton] at ha
      rcases ha with ((ha | ha) | ha) | rfl
      · exact h a (List.mem_of_mem_take ha)
      · exact h a (List.mem_of_mem_drop (List.mem_of_mem_take ha))
      · exact h a (List.mem_of_mem_drop ha)
      · have hilen : i < anns.length := by omega
        have hi : anns.getD i default ∈ anns := by
          rw [List.getD_eq_getElem anns default hilen]
          exact List.getElem_mem hilen
        have hj : anns.getD j default ∈ anns := by
          rw [List.getD_eq_getElem anns default s2]
          exact List.getElem_mem s2
        exact merge_desc_ne_empty (h _ hi) (h _ hj)

/-- C10 (amended): `clean_text_annotations` preserves non-emptiness of
descriptions — if every input description is a non-empty string then so is
every output description (merges keep one of the two descriptions or join
them with a space) — but the engine itself performs no validation, so
non-emptiness holds only when the upstream input satisfies it. -/
theorem C10_descriptions_nonempty_preserved :
    ∀ anns : List TextAnnotation, (∀ a ∈ anns, a.description ≠ "") →
      ∀ b ∈ clean_text_annotations anns, b.description ≠ "" := by
  intro anns h
  unfold clean_text_annotations merge_boxes_with_criteria
  apply mbwcAux_desc_ne_empty
  apply mbwcAux_desc_ne_empty
  exact h

/-- Witness for C10 (amended): a concrete singleton input with description
"hi" yields an output member whose description is non-empty. -/
theorem C10_descriptions_nonempty_preserved_witness :
    (⟨"hi", sqBox⟩ : TextAnnotation).description ≠ "" := by
  have hclean : clean_text_annotations [(⟨"hi", sqBox⟩ : TextAnnotation)] =
      [(⟨"hi", sqBox⟩ : TextAnnotation)] := by
    unfold clean_text_annotations
    rw [mbwc_eq_of_none (by simp [findPair, findJ]),
      mbwc_eq_of_none (by simp [findPair, findJ])]
  exact C10_descriptions_nonempty_preserved [(⟨"hi", sqBox⟩ : TextAnnotation)]
    (by intro a ha; rw [List.mem_singleton] at ha; subst ha; simp)
    (⟨"hi", sqBox⟩ : TextAnnotation)
    (by rw [hclean]; exact List.mem_singleton.mpr rfl)

/-! ### C5: geometry of the merged box -/

theorem exists_convex_coord {lo hi q : ℝ} (h0 : lo ≤ q) (h1 : q ≤ hi) :
    ∃ t : ℝ, 0 ≤ t ∧ t ≤ 1 ∧ (1 - t) * lo + t * hi = q := by
  rcases eq_or_lt_of_le (h0.trans h1) with heq | hlt
  · refine ⟨0, le_refl 0, zero_le_one, ?_⟩
    have hq : q = lo := le_antisymm (heq ▸ h1) h0
    rw [hq]
    ring
  · have hne : hi - lo ≠ 0 := by linarith
    refine ⟨(q - lo) / (hi - lo), div_nonneg (by linarith) (by linarith), ?_, ?_⟩
    · rw [div_le_one (by linarith)]
      linarith
    · field_simp
      ring

theorem inHull_quad_pts (w0 w1 w2 w3 a0 b0 a1 b1 a2 b2 a3 b3 X Y : ℝ)
    (h0 : 0 ≤ w0) (h1 : 0 ≤ w1) (h2 : 0 ≤ w2) (h3 : 0 ≤ w3)
    (hs : w0 + w1 + w2 + w3 = 1)
    (hx : w0 * a0 + w1 * a1 + w2 * a2 + w3 * a3 = X)
    (hy : w0 * b0 + w1 * b1 + w2 * b2 + w3 * b3 = Y) :
    inHull (X, Y) [⟨a0, b0⟩, ⟨a1, b1⟩, ⟨a2, b2⟩, ⟨a3, b3⟩] :=
  inHull_quad h0 h1 h2 h3 hs hx hy

theorem inHull_backRot (c s cx cy x0 x1 y0 y1 α β : ℝ)
    (hα0 : 0 ≤ α) (hα1 : α ≤ 1) (hβ0 : 0 ≤ β) (hβ1 : β ≤ 1) :
    inHull (((1 - α) * x0 + α * x1) * c + ((1 - β) * y0 + β * y1) * s + cx,
        (-((1 - α) * x0 + α * x1)) * s + ((1 - β) * y0 + β * y1) * c + cy)
      [⟨x0 * c + y0 * s + cx, (-x0) * s + y0 * c + cy⟩,
       ⟨x1 * c + y0 * s + cx, (-x1) * s + y0 * c + cy⟩,
       ⟨x1 * c + y1 * s + cx, (-x1) * s + y1 * c + cy⟩,
       ⟨x0 * c + y1 * s + cx, (-x0) * s + y1 * c + cy⟩] := by
  exact inHull_quad_pts ((1 - α) * (1 - β)) (α * (1 - β)) (α * β) ((1 - α) * β)
    (x0 * c + y0 * s + cx) ((-x0) * s + y0 * c + cy)
    (x1 * c + y0 * s + cx) ((-x1) * s + y0 * c + cy)
    (x1 * c + y1 * s + cx) ((-x1) * s + y1 * c + cy)
    (x0 * c + y1 * s + cx) ((-x0) * s + y1 * c + cy)
    (((1 - α) * x0 + α * x1) * c + ((1 - β) * y0 + β * y1) * s + cx)
    ((-((1 - α) * x0 + α * x1)) * s + ((1 - β) * y0 + β * y1) * c + cy)
    (mul_nonneg (by linarith) (by linarith)) (mul_nonneg (by linarith) (by linarith))
    (mul_nonneg (by linarith) (by linarith)) (mul_nonneg (by linarith) (by linarith))
    (by ring) (by ring) (by ring)

theorem merge_boxes_poly (a b : TextAnnotation) :
    (merge_boxes a b).bounding_poly =
      ⟨[⟨mergedXMin a b * Real.cos (-(mergedAngle a b)) +
            mergedYMin a b * Real.sin (-(mergedAngle a b)) + a.bounding_poly.center.x,
          (-(mergedXMin a b)) * Real.sin (-(mergedAngle a b)) +
            mergedYMin a b * Real.cos (-(mergedAngle a b)) + a.bounding_poly.center.y⟩,
        ⟨mergedXMax a b * Real.cos (-(mergedAngle a b)) +
            mergedYMin a b * Real.sin (-(mergedAngle a b)) + a.bounding_poly.center.x,
          (-(mergedXMax a b)) * Real.sin (-(mergedAngle a b)) +
            mergedYMin a b * Real.cos (-(mergedAngle a b)) + a.bounding_poly.center.y⟩,
        ⟨mergedXMax a b * Real.cos (-(mergedAngle a b)) +
            mergedYMax a b * Real.sin (-(mergedAngle a b)) + a.bounding_poly.center.x,
          (-(mergedXMax a b)) * Real.sin (-(mergedAngle a b)) +
            mergedYMax a b * Real.cos (-(mergedAngle a b)) + a.bounding_poly.center.y⟩,
        ⟨mergedXMin a b * Real.cos (-(mergedAngle a b)) +
            mergedYMax a b * Real.sin (-(mergedAngle a b)) + a.bounding_poly.center.x,
          (-(mergedXMin a b)) * Real.sin (-(mergedAngle a b)) +
            mergedYMax a b * Real.cos (-(mergedAngle a b)) + a.bounding_poly.center.y⟩]⟩ :=
  rfl

theorem mem_mergedRotatedPts (a b : TextAnnotation) {p : Point}
    (hp : p ∈ a.bounding_poly.vertices ++ b.bounding_poly.vertices) :
    ((p.x - a.bounding_poly.center.x) * Real.cos (-(mergedAngle a b)) -
        (p.y - a.bounding_poly.center.y) * Real.sin (-(mergedAngle a b)),
      (p.x - a.bounding_poly.center.x) * Real.sin (-(mergedAngle a b)) +
        (p.y - a.bounding_poly.center.y) * Real.cos (-(mergedAngle a b))) ∈
      mergedRotatedPts a b := by
  unfold mergedRotatedPts rotateVerts
  rcases List.mem_append.mp hp with h | h
  · exact List.mem_append_left _ (List.mem_map_of_mem _ h)
  · exact List.mem_append_right _ (List.mem_map_of_mem _ h)

theorem inHull_merge_boxes (a b : TextAnnotation) {p : Point}
    (hp : p ∈ a.bounding_poly.vertices ++ b.bounding_poly.vertices) :
    inHull (p.x, p.y) (merge_boxes a b).bounding_poly.vertices := by
  have hqmem := mem_mergedRotatedPts a b hp
  have hx0 : mergedXMin a b ≤
      (p.x - a.bounding_poly.center.x) * Real.cos (-(mergedAngle a b)) -
        (p.y - a.bounding_poly.center.y) * Real.sin (-(mergedAngle a b)) :=
    listMin_le_of_mem (List.mem_map_of_mem Prod.fst hqmem)
  have hx1 : (p.x - a.bounding_poly.center.x) * Real.cos (-(mergedAngle a b)) -
        (p.y - a.bounding_poly.center.y) * Real.sin (-(mergedAngle a b)) ≤
      mergedXMax a b :=
    le_listMax_of_mem (List.mem_map_of_mem Prod.fst hqmem)
  have hy0 : mergedYMin a b ≤
      (p.x - a.bounding_poly.center.x) * Real.sin (-(mergedAngle a b)) +
        (p.y - a.bounding_poly.center.y) * Real.cos (-(mergedAngle a b)) :=
    listMin_le_of_mem (List.mem_map_of_mem Prod.snd hqmem)
  have hy1 : (p.x - a.bounding_poly.center.x) * Real.sin (-(mergedAngle a b)) +
        (p.y - a.bounding_poly.center.y) * Real.cos (-(mergedAngle a b)) ≤
      mergedYMax a b :=
    le_listMax_of_mem (List.mem_map_of_mem Prod.snd hqmem)
  obtain ⟨α, hα0, hα1, hαx⟩ := exists_convex_coord hx0 hx1
  obtain ⟨β, hβ0, hβ1, hβy⟩ := exists_convex_coord hy0 hy1
  have hmain := inHull_backRot (Real.cos (-(mergedAngle a b))) (Real.sin (-(mergedAngle a b)))
    a.bounding_poly.center.x a.bounding_poly.center.y
    (mergedXMin a b) (mergedXMax a b) (mergedYMin a b) (mergedYMax a b) α β hα0 hα1 hβ0 hβ1
  rw [hαx, hβy] at hmain
  have hpyth := Real.sin_sq_add_cos_sq (-(mergedAngle a b))
  have hpx : ((p.x - a.bounding_poly.center.x) * Real.cos (-(mergedAngle a b)) -
          (p.y - a.bounding_poly.center.y) * Real.sin (-(mergedAngle a b))) *
          Real.cos (-(mergedAngle a b)) +
        ((p.x - a.bounding_poly.center.x) * Real.sin (-(mergedAngle a b)) +
          (p.y - a.bounding_poly.center.y) * Real.cos (-(mergedAngle a b))) *
          Real.sin (-(mergedAngle a b)) +
        a.bounding_poly.center.x = p.x := by
    linear_combination (p.x - a.bounding_poly.center.x) * hpyth
  have hpy : (-((p.x - a.bounding_poly.center.x) * Real.cos (-(mergedAngle a b)) -
          (p.y - a.bounding_poly.center.y) * Real.sin (-(mergedAngle a b)))) *
          Real.sin (-(mergedAngle a b)) +
        ((p.x - a.bounding_poly.center.x) * Real.sin (-(mergedAngle a b)) +
          (p.y - a.bounding_poly.center.y) * Real.cos (-(mergedAngle a b))) *
          Real.cos (-(mergedAngle a b)) +
        a.bounding_poly.center.y = p.y := by
    linear_combination (p.y - a.bounding_poly.center.y) * hpyth
  rw [hpx, hpy] at hmain
  rw [merge_boxes_poly]
  exact hmain

theorem merge_boxes_angle (a b : TextAnnotation) :
    (merge_boxes a b).bounding_poly.angle =
      atan2 ((mergedXMax a b - mergedXMin a b) * Real.sin (mergedAngle a b))
        ((mergedXMax a b - mergedXMin a b) * Real.cos (mergedAngle a b)) := by
  have hstep : (merge_boxes a b).bounding_poly.angle =
      atan2 ((-(mergedXMax a b)) * Real.sin (-(mergedAngle a b)) +
          mergedYMin a b * Real.cos (-(mergedAngle a b)) + a.bounding_poly.center.y -
          ((-(mergedXMin a b)) * Real.sin (-(mergedAngle a b)) +
            mergedYMin a b * Real.cos (-(mergedAngle a b)) + a.bounding_poly.center.y))
        (mergedXMax a b * Real.cos (-(mergedAngle a b)) +
          mergedYMin a b * Real.sin (-(mergedAngle a b)) + a.bounding_poly.center.x -
          (mergedXMin a b * Real.cos (-(mergedAngle a b)) +
            mergedYMin a b * Real.sin (-(mergedAngle a b)) + a.bounding_poly.center.x)) :=
    rfl
  have e1 : (-(mergedXMax a b)) * Real.sin (-(mergedAngle a b)) +
        mergedYMin a b * Real.cos (-(mergedAngle a b)) + a.bounding_poly.center.y -
        ((-(mergedXMin a b)) * Real.sin (-(mergedAngle a b)) +
          mergedYMin a b * Real.cos (-(mergedAngle a b)) + a.bounding_poly.center.y) =
      (mergedXMax a b - mergedXMin a b) * Real.sin (mergedAngle a b) := by
    rw [Real.sin_neg, Real.cos_neg]
    ring
  have e2 : mergedXMax a b * Real.cos (-(mergedAngle a b)) +
        mergedYMin a b * Real.sin (-(mergedAngle a b)) + a.bounding_poly.center.x -
        (mergedXMin a b * Real.cos (-(mergedAngle a b)) +
          mergedYMin a b * Real.sin (-(mergedAngle a b)) + a.bounding_poly.center.x) =
      (mergedXMax a b - mergedXMin a b) * Real.cos (mergedAngle a b) := by
    rw [Real.sin_neg, Real.cos_neg]
    ring
  rw [hstep, e1, e2]

theorem mergedAngle_mem_Ioc (a b : TextAnnotation) :
    -Real.pi < mergedAngle a b ∧ mergedAngle a b ≤ Real.pi := by
  unfold mergedAngle
  split_ifs
  · exact atan2_mem_Ioc _ _
  · exact atan2_mem_Ioc _ _

theorem vtx_mem {cb : BoundingBox} {i : ℕ} (h : i < cb.vertices.length) :
    cb.vtx i ∈ cb.vertices := by
  unfold BoundingBox.vtx
  rw [List.getD_eq_getElem cb.vertices ⟨0, 0⟩ h]
  exact List.getElem_mem h

theorem box_angle_zero_of_flat (a b : TextAnnotation) (cb : BoundingBox)
    (hang : cb.angle = mergedAngle a b)
    (heq : mergedXMin a b = mergedXMax a b)
    (h0 : cb.vtx 0 ∈ a.bounding_poly.vertices ++ b.bounding_poly.vertices)
    (h1 : cb.vtx 1 ∈ a.bounding_poly.vertices ++ b.bounding_poly.vertices) :
    cb.angle = 0 := by
  have hm0 := mem_mergedRotatedPts a b h0
  have hm1 := mem_mergedRotatedPts a b h1
  have hx00 : mergedXMin a b ≤
      ((cb.vtx 0).x - a.bounding_poly.center.x) * Real.cos (-(mergedAngle a b)) -
        ((cb.vtx 0).y - a.bounding_poly.center.y) * Real.sin (-(mergedAngle a b)) :=
    listMin_le_of_mem (List.mem_map_of_mem Prod.fst hm0)
  have hx01 : ((cb.vtx 0).x - a.bounding_poly.center.x) * Real.cos (-(mergedAngle a b)) -
        ((cb.vtx 0).y - a.bounding_poly.center.y) * Real.sin (-(mergedAngle a b)) ≤
      mergedXMax a b :=
    le_listMax_of_mem (List.mem_map_of_mem Prod.fst hm0)
  have hx10 : mergedXMin a b ≤
      ((cb.vtx 1).x - a.bounding_poly.center.x) * Real.cos (-(mergedAngle a b)) -
        ((cb.vtx 1).y - a.bounding_poly.center.y) * Real.sin (-(mergedAngle a b)) :=
    listMin_le_of_mem (List.mem_map_of_mem Prod.fst hm1)
  have hx11 : ((cb.vtx 1).x - a.bounding_poly.center.x) * Real.cos (-(mergedAngle a b)) -
        ((cb.vtx 1).y - a.bounding_poly.center.y) * Real.sin (-(mergedAngle a b)) ≤
      mergedXMax a b :=
    le_listMax_of_mem (List.mem_map_of_mem Prod.fst hm1)
  have hz : ((cb.vtx 1).x - a.bounding_poly.center.x) * Real.cos (-(mergedAngle a b)) -
        ((cb.vtx 1).y - a.bounding_poly.center.y) * Real.sin (-(mergedAngle a b)) =
      ((cb.vtx 0).x - a.bounding_poly.center.x) * Real.cos (-(mergedAngle a b)) -
        ((cb.vtx 0).y - a.bounding_poly.center.y) * Real.sin (-(mergedAngle a b)) := by
    linarith
  rw [Real.cos_neg, Real.sin_neg] at hz
  rw [← hang] at hz
  have hkey : ((cb.vtx 1).x - (cb.vtx 0).x) * Real.cos cb.angle +
      ((cb.vtx 1).y - (cb.vtx 0).y) * Real.sin cb.angle = 0 := by
    linear_combination hz
  have hangle : cb.angle =
      atan2 ((cb.vtx 1).y - (cb.vtx 0).y) ((cb.vtx 1).x - (cb.vtx 0).x) := rfl
  rw [hangle] at hkey
  have hproj := atan2_proj ((cb.vtx 1).y - (cb.vtx 0).y) ((cb.vtx 1).x - (cb.vtx 0).x)
  have hsq : Real.sqrt (((cb.vtx 1).x - (cb.vtx 0).x) ^ 2 +
      ((cb.vtx 1).y - (cb.vtx 0).y) ^ 2) = 0 := by
    rw [← hproj]
    exact hkey
  have hle0 : ((cb.vtx 1).x - (cb.vtx 0).x) ^ 2 +
      ((cb.vtx 1).y - (cb.vtx 0).y) ^ 2 ≤ 0 := Real.sqrt_eq_zero'.mp hsq
  have hdx2 : ((cb.vtx 1).x - (cb.vtx 0).x) ^ 2 = 0 :=
    le_antisymm (by linarith [sq_nonneg ((cb.vtx 1).y - (cb.vtx 0).y)]) (sq_nonneg _)
  have hdy2 : ((cb.vtx 1).y - (cb.vtx 0).y) ^ 2 = 0 :=
    le_antisymm (by linarith [sq_nonneg ((cb.vtx 1).x - (cb.vtx 0).x)]) (sq_nonneg _)
  have hdx := sq_eq_zero_iff.mp hdx2
  have hdy := sq_eq_zero_iff.mp hdy2
  rw [hangle, hdy, hdx]
  exact atan2_zero_zero

theorem merge_boxes_angle_eq (a b : TextAnnotation)
    (ha4 : a.bounding_poly.vertices.length = 4)
    (hb4 : b.bounding_poly.vertices.length = 4) :
    (merge_boxes a b).bounding_poly.angle = mergedAngle a b := by
  have hle : mergedXMin a b ≤ mergedXMax a b := listMin_le_listMax _
  rcases hle.lt_or_eq with hlt | heq
  · have hIoc := mergedAngle_mem_Ioc a b
    rw [merge_boxes_angle]
    exact atan2_polar (by linarith) hIoc.1 hIoc.2
  · have hL : (merge_boxes a b).bounding_poly.angle = 0 := by
      rw [merge_boxes_angle, ← heq, sub_self, zero_mul, zero_mul]
      exact atan2_zero_zero
    rw [hL]
    have hmz : mergedAngle a b = 0 := by
      unfold mergedAngle
      split_ifs with harea
      · exact box_angle_zero_of_flat a b a.bounding_poly
          (by unfold mergedAngle; rw [if_pos harea]) heq
          (List.mem_append_left _ (vtx_mem (by omega)))
          (List.mem_append_left _ (vtx_mem (by omega)))
      · exact box_angle_zero_of_flat a b b.bounding_poly
          (by unfold mergedAngle; rw [if_neg harea]) heq
          (List.mem_append_right _ (vtx_mem (by omega)))
          (List.mem_append_right _ (vtx_mem (by omega)))
    exact hmz.symm

/-- C5: for four-vertex inputs, the box built by `merge_boxes` contains all
eight vertices of the two input boxes (each is a convex combination of the
merged quadrilateral's corners, i.e. lies inside or on it), and the merged
box's angle — the direction of its vertex-0-to-vertex-1 edge — equals the
angle of the input box with the larger rectangle-model area (the first
operand's when the areas tie), the construction being anchored at the first
operand's centre. -/
theorem C5_merge_geometry (a b : TextAnnotation)
    (ha4 : a.bounding_poly.vertices.length = 4)
    (hb4 : b.bounding_poly.vertices.length = 4) :
    (∀ p ∈ a.bounding_poly.vertices ++ b.bounding_poly.vertices,
        inHull (p.x, p.y) (merge_boxes a b).bounding_poly.vertices) ∧
      (merge_boxes a b).bounding_poly.angle =
        (if a.bounding_poly.area ≥ b.bounding_poly.area then a.bounding_poly.angle
         else b.bounding_poly.angle) := by
  constructor
  · intro p hp
    exact inHull_merge_boxes a b hp
  · rw [merge_boxes_angle_eq a b ha4 hb4]
    rfl

/-- Witness for C5 at two concrete four-vertex boxes: the first vertex of the
first input lies in the merged hull. -/
theorem C5_merge_geometry_witness :
    inHull ((Point.mk 0 0).x, (Point.mk 0 0).y)
      (merge_boxes ⟨"x", boxR0⟩ ⟨"y", boxLow⟩).bounding_poly.vertices := by
  have h := C5_merge_geometry ⟨"x", boxR0⟩ ⟨"y", boxLow⟩ rfl rfl
  exact h.1 (Point.mk 0 0) (List.mem_append_left _ (List.mem_cons_self _ _))

/-! ### C6: evaluation of the counterexample scenario.  The tilt direction
(840, 41)/841 comes from a Pythagorean triple, so every derived quantity of
the three concrete boxes is rational. -/

theorem cos_tilt : Real.cos (Real.arctan (41 / 840)) = 840 / 841 := by
  rw [Real.cos_arctan]
  rw [show (1 : ℝ) + (41 / 840) ^ 2 = (841 / 840) ^ 2 by norm_num]
  rw [Real.sqrt_sq (by norm_num : (0 : ℝ) ≤ 841 / 840)]
  norm_num

theorem sin_tilt : Real.sin (Real.arctan (41 / 840)) = 41 / 841 := by
  rw [Real.sin_arctan]
  rw [show (1 : ℝ) + (41 / 840) ^ 2 = (841 / 840) ^ 2 by norm_num]
  rw [Real.sqrt_sq (by norm_num : (0 : ℝ) ≤ 841 / 840)]
  norm_num

theorem tilt_nonneg : (0 : ℝ) ≤ Real.arctan (41 / 840) :=
  arctan_nonneg (by norm_num)

theorem tilt_le : Real.arctan (41 / 840) ≤ 41 / 840 :=
  arctan_le_self (by norm_num)

theorem cos_sq_half_tilt : Real.cos (Real.arctan (41 / 840) / 2) ^ 2 = 1681 / 1682 := by
  have h := Real.cos_sq (Real.arctan (41 / 840) / 2)
  rw [show 2 * (Real.arctan (41 / 840) / 2) = Real.arctan (41 / 840) by ring,
    cos_tilt] at h
  rw [h]
  norm_num

theorem sin_sq_half_tilt : Real.sin (Real.arctan (41 / 840) / 2) ^ 2 = 1 / 1682 := by
  have h := Real.sin_sq (Real.arctan (41 / 840) / 2)
  rw [cos_sq_half_tilt] at h
  rw [h]
  norm_num

theorem sin_cos_half_tilt :
    Real.sin (Real.arctan (41 / 840) / 2) * Real.cos (Real.arctan (41 / 840) / 2) =
      41 / 1682 := by
  have h := Real.sin_two_mul (Real.arctan (41 / 840) / 2)
  rw [show 2 * (Real.arctan (41 / 840) / 2) = Real.arctan (41 / 840) by ring,
    sin_tilt] at h
  linarith

theorem cexA_angle : cexA.angle = Real.arctan (41 / 840) := by
  show atan2 (515 / 841 - -9120 / 841) (96805 / 841 - -100595 / 841) =
    Real.arctan (41 / 840)
  rw [atan2_pos_x (by norm_num : (0 : ℝ) < 96805 / 841 - -100595 / 841)]
  norm_num

theorem cexB_angle : cexB.angle = Real.arctan (41 / 840) := by
  show atan2 (720 / 841 - 679 / 841) (101005 / 841 - 100165 / 841) =
    Real.arctan (41 / 840)
  rw [atan2_pos_x (by norm_num : (0 : ℝ) < 101005 / 841 - 100165 / 841)]
  norm_num

theorem cexAB_angle : cexAB.angle = Real.arctan (41 / 840) := by
  show atan2 (720 / 841 - -9120 / 841) (101005 / 841 - -100595 / 841) =
    Real.arctan (41 / 840)
  rw [atan2_pos_x (by norm_num : (0 : ℝ) < 101005 / 841 - -100595 / 841)]
  norm_num

theorem cexC_angle : cexC.angle = 0 := by
  show atan2 (107 / 10 - 107 / 10) (1119 - 119) = 0
  rw [atan2_pos_x (by norm_num : (0 : ℝ) < 1119 - 119)]
  norm_num

theorem cexA_cx : cexA.center.x = -2100 / 841 := by
  show (cexA.vertices.map Point.x).sum / 4 = -2100 / 841
  norm_num [cexA]

theorem cexA_cy : cexA.center.y = -205 / 1682 := by
  show (cexA.vertices.map Point.y).sum / 4 = -205 / 1682
  norm_num [cexA]

theorem cexC_cx : cexC.center.x = 619 := by
  show (cexC.vertices.map Point.x).sum / 4 = 619
  norm_num [cexC]

theorem cexC_cy : cexC.center.y = 157 / 10 := by
  show (cexC.vertices.map Point.y).sum / 4 = 157 / 10
  norm_num [cexC]

theorem cexAB_cx : cexAB.center.x = 0 := by
  show (cexAB.vertices.map Point.x).sum / 4 = 0
  norm_num [cexAB]

theorem cexAB_cy : cexAB.center.y = 0 := by
  show (cexAB.vertices.map Point.y).sum / 4 = 0
  norm_num [cexAB]

theorem cexA_area : cexA.area = 2350 := by
  have e0 : ptDist (cexA.vtx 0) (cexA.vtx 1) = 235 := by
    show Real.sqrt ((96805 / 841 - -100595 / 841) * (96805 / 841 - -100595 / 841) +
      (515 / 841 - -9120 / 841) * (515 / 841 - -9120 / 841)) = 235
    rw [show (96805 / 841 - -100595 / 841) * (96805 / 841 - -100595 / 841) +
        (515 / 841 - -9120 / 841) * (515 / 841 - -9120 / 841) = (235 : ℝ) ^ 2 by norm_num]
    exact Real.sqrt_sq (by norm_num)
  have e1 : ptDist (cexA.vtx 1) (cexA.vtx 2) = 10 := by
    show Real.sqrt ((96395 / 841 - 96805 / 841) * (96395 / 841 - 96805 / 841) +
      (8915 / 841 - 515 / 841) * (8915 / 841 - 515 / 841)) = 10
    rw [show (96395 / 841 - 96805 / 841) * (96395 / 841 - 96805 / 841) +
        (8915 / 841 - 515 / 841) * (8915 / 841 - 515 / 841) = (10 : ℝ) ^ 2 by norm_num]
    exact Real.sqrt_sq (by norm_num)
  have e2 : ptDist (cexA.vtx 2) (cexA.vtx 3) = 235 := by
    show Real.sqrt ((-101005 / 841 - 96395 / 841) * (-101005 / 841 - 96395 / 841) +
      (-720 / 841 - 8915 / 841) * (-720 / 841 - 8915 / 841)) = 235
    rw [show (-101005 / 841 - 96395 / 841) * (-101005 / 841 - 96395 / 841) +
        (-720 / 841 - 8915 / 841) * (-720 / 841 - 8915 / 841) = (235 : ℝ) ^ 2 by norm_num]
    exact Real.sqrt_sq (by norm_num)
  have e3 : ptDist (cexA.vtx 3) (cexA.vtx 0) = 10 := by
    show Real.sqrt ((-100595 / 841 - -101005 / 841) * (-100595 / 841 - -101005 / 841) +
      (-9120 / 841 - -720 / 841) * (-9120 / 841 - -720 / 841)) = 10
    rw [show (-100595 / 841 - -101005 / 841) * (-100595 / 841 - -101005 / 841) +
        (-9120 / 841 - -720 / 841) * (-9120 / 841 - -720 / 841) = (10 : ℝ) ^ 2 by norm_num]
    exact Real.sqrt_sq (by norm_num)
  show (ptDist (cexA.vtx 0) (cexA.vtx 1) + ptDist (cexA.vtx 2) (cexA.vtx 3)) / 2 *
    ((ptDist (cexA.vtx 1) (cexA.vtx 2) + ptDist (cexA.vtx 3) (cexA.vtx 0)) / 2) = 2350
  rw [e0, e1, e2, e3]
  norm_num

theorem cexB_area : cexB.area = 8 := by
  have e0 : ptDist (cexB.vtx 0) (cexB.vtx 1) = 1 := by
    show Real.sqrt ((101005 / 841 - 100165 / 841) * (101005 / 841 - 100165 / 841) +
      (720 / 841 - 679 / 841) * (720 / 841 - 679 / 841)) = 1
    rw [show (101005 / 841 - 100165 / 841) * (101005 / 841 - 100165 / 841) +
        (720 / 841 - 679 / 841) * (720 / 841 - 679 / 841) = (1 : ℝ) ^ 2 by norm_num]
    exact Real.sqrt_sq (by norm_num)
  have e1 : ptDist (cexB.vtx 1) (cexB.vtx 2) = 8 := by
    show Real.sqrt ((100677 / 841 - 101005 / 841) * (100677 / 841 - 101005 / 841) +
      (7440 / 841 - 720 / 841) * (7440 / 841 - 720 / 841)) = 8
    rw [show (100677 / 841 - 101005 / 841) * (100677 / 841 - 101005 / 841) +
        (7440 / 841 - 720 / 841) * (7440 / 841 - 720 / 841) = (8 : ℝ) ^ 2 by norm_num]
    exact Real.sqrt_sq (by norm_num)
  have e2 : ptDist (cexB.vtx 2) (cexB.vtx 3) = 1 := by
    show Real.sqrt ((99837 / 841 - 100677 / 841) * (99837 / 841 - 100677 / 841) +
      (7399 / 841 - 7440 / 841) * (7399 / 841 - 7440 / 841)) = 1
    rw [show (99837 / 841 - 100677 / 841) * (99837 / 841 - 100677 / 841) +
        (7399 / 841 - 7440 / 841) * (7399 / 841 - 7440 / 841) = (1 : ℝ) ^ 2 by norm_num]
    exact Real.sqrt_sq (by norm_num)
  have e3 : ptDist (cexB.vtx 3) (cexB.vtx 0) = 8 := by
    show Real.sqrt ((100165 / 841 - 99837 / 841) * (100165 / 841 - 99837 / 841) +
      (679 / 841 - 7399 / 841) * (679 / 841 - 7399 / 841)) = 8
    rw [show (100165 / 841 - 99837 / 841) * (100165 / 841 - 99837 / 841) +
        (679 / 841 - 7399 / 841) * (679 / 841 - 7399 / 841) = (8 : ℝ) ^ 2 by norm_num]
    exact Real.sqrt_sq (by norm_num)
  show (ptDist (cexB.vtx 0) (cexB.vtx 1) + ptDist (cexB.vtx 2) (cexB.vtx 3)) / 2 *
    ((ptDist (cexB.vtx 1) (cexB.vtx 2) + ptDist (cexB.vtx 3) (cexB.vtx 0)) / 2) = 8
  rw [e0, e1, e2, e3]
  norm_num

theorem cexC_h : cexC.dimensions.2 = 10 := by
  have e1 : ptDist (cexC.vtx 1) (cexC.vtx 2) = 10 := by
    show Real.sqrt ((1119 - 1119) * (1119 - 1119) +
      (207 / 10 - 107 / 10) * (207 / 10 - 107 / 10)) = 10
    rw [show ((1119 : ℝ) - 1119) * (1119 - 1119) +
        (207 / 10 - 107 / 10) * (207 / 10 - 107 / 10) = (10 : ℝ) ^ 2 by norm_num]
    exact Real.sqrt_sq (by norm_num)
  have e3 : ptDist (cexC.vtx 3) (cexC.vtx 0) = 10 := by
    show Real.sqrt ((119 - 119) * (119 - 119) +
      (107 / 10 - 207 / 10) * (107 / 10 - 207 / 10)) = 10
    rw [show ((119 : ℝ) - 119) * (119 - 119) +
        (107 / 10 - 207 / 10) * (107 / 10 - 207 / 10) = (10 : ℝ) ^ 2 by norm_num]
    exact Real.sqrt_sq (by norm_num)
  show (ptDist (cexC.vtx 1) (cexC.vtx 2) + ptDist (cexC.vtx 3) (cexC.vtx 0)) / 2 = 10
  rw [e1, e3]
  norm_num

theorem cexAB_h : cexAB.dimensions.2 = 10 := by
  have e1 : ptDist (cexAB.vtx 1) (cexAB.vtx 2) = 10 := by
    show Real.sqrt ((100595 / 841 - 101005 / 841) * (100595 / 841 - 101005 / 841) +
      (9120 / 841 - 720 / 841) * (9120 / 841 - 720 / 841)) = 10
    rw [show (100595 / 841 - 101005 / 841) * (100595 / 841 - 101005 / 841) +
        (9120 / 841 - 720 / 841) * (9120 / 841 - 720 / 841) = (10 : ℝ) ^ 2 by norm_num]
    exact Real.sqrt_sq (by norm_num)
  have e3 : ptDist (cexAB.vtx 3) (cexAB.vtx 0) = 10 := by
    show Real.sqrt ((-100595 / 841 - -101005 / 841) * (-100595 / 841 - -101005 / 841) +
      (-9120 / 841 - -720 / 841) * (-9120 / 841 - -720 / 841)) = 10
    rw [show (-100595 / 841 - -101005 / 841) * (-100595 / 841 - -101005 / 841) +
        (-9120 / 841 - -720 / 841) * (-9120 / 841 - -720 / 841) = (10 : ℝ) ^ 2 by norm_num]
    exact Real.sqrt_sq (by norm_num)
  show (ptDist (cexAB.vtx 1) (cexAB.vtx 2) + ptDist (cexAB.vtx 3) (cexAB.vtx 0)) / 2 = 10
  rw [e1, e3]
  norm_num

theorem not_polyIntersects_of_sep (b1 b2 : BoundingBox) (a c r1 r2 : ℝ)
    (h1 : ∀ v ∈ b1.vertices, a * v.x + c * v.y ≤ r1)
    (h2 : ∀ v ∈ b2.vertices, (-a) * v.x + (-c) * v.y ≤ r2)
    (hr : r1 + r2 < 0) :
    ¬ polyIntersects b1 b2 := by
  rintro ⟨p, hp1, hp2⟩
  have g1 := inHull_linear_le hp1 h1
  have g2 := inHull_linear_le hp2 h2
  linarith

theorem sep_A_B : ¬ polyIntersects cexA cexB := by
  refine not_polyIntersects_of_sep cexA cexB 840 41 96715 (-100079) ?_ ?_ (by norm_num)
  · intro v hv
    simp only [cexA, List.mem_cons, List.not_mem_nil, or_false] at hv
    rcases hv with rfl | rfl | rfl | rfl <;> norm_num
  · intro v hv
    simp only [cexB, List.mem_cons, List.not_mem_nil, or_false] at hv
    rcases hv with rfl | rfl | rfl | rfl <;> norm_num

theorem sep_A_C : ¬ polyIntersects cexA cexC := by
  refine not_polyIntersects_of_sep cexA cexC 0 1 (8915 / 841) (-(107 / 10)) ?_ ?_
    (by norm_num)
  · intro v hv
    simp only [cexA, List.mem_cons, List.not_mem_nil, or_false] at hv
    rcases hv with rfl | rfl | rfl | rfl <;> norm_num
  · intro v hv
    simp only [cexC, List.mem_cons, List.not_mem_nil, or_false] at hv
    rcases hv with rfl | rfl | rfl | rfl <;> norm_num

theorem sep_B_C : ¬ polyIntersects cexB cexC := by
  refine not_polyIntersects_of_sep cexB cexC 0 1 (7440 / 841) (-(107 / 10)) ?_ ?_
    (by norm_num)
  · intro v hv
    simp only [cexB, List.mem_cons, List.not_mem_nil, or_false] at hv
    rcases hv with rfl | rfl | rfl | rfl <;> norm_num
  · intro v hv
    simp only [cexC, List.mem_cons, List.not_mem_nil, or_false] at hv
    rcases hv with rfl | rfl | rfl | rfl <;> norm_num

theorem findPair_singleton (crit : BoundingBox → BoundingBox → Prop)
    (x : TextAnnotation) : findPair crit [x] = none := by
  simp [findPair, findJ]

theorem rotAA : rotInFrame1 cexA cexA =
    [(-235/2, -5), (235/2, -5), (235/2, 5), (-235/2, 5)] := by
  unfold rotInFrame1 rotateVerts
  rw [cexA_angle, Real.cos_neg, Real.sin_neg, cos_tilt, sin_tilt, cexA_cx, cexA_cy]
  norm_num [cexA, Prod.ext_iff]

theorem rotAB : rotInFrame1 cexA cexB =
    [(243/2, -5), (245/2, -5), (245/2, 3), (243/2, 3)] := by
  unfold rotInFrame1 rotateVerts
  rw [cexA_angle, Real.cos_neg, Real.sin_neg, cos_tilt, sin_tilt, cexA_cx, cexA_cy]
  norm_num [cexB, Prod.ext_iff]

theorem rotCC : rotInFrame1 cexC cexC =
    [(-500, -5), (500, -5), (500, 5), (-500, 5)] := by
  unfold rotInFrame1 rotateVerts
  rw [cexC_angle, neg_zero, Real.cos_zero, Real.sin_zero, cexC_cx, cexC_cy]
  norm_num [cexC, Prod.ext_iff]

theorem rotCAB : rotInFrame1 cexC cexAB =
    [(-621174/841, -223237/8410), (-419574/841, -124837/8410),
     (-419984/841, -40837/8410), (-621584/841, -139237/8410)] := by
  unfold rotInFrame1 rotateVerts
  rw [cexC_angle, neg_zero, Real.cos_zero, Real.sin_zero, cexC_cx, cexC_cy]
  norm_num [cexAB, Prod.ext_iff]

theorem fMinY_AA : frameMinY cexA cexA = -5 := by
  show listMin ((rotInFrame1 cexA cexA).map Prod.snd) = -5
  rw [rotAA]
  norm_num [listMin, List.foldl, min_def]

theorem fMaxY_AA : frameMaxY cexA cexA = 5 := by
  show listMax ((rotInFrame1 cexA cexA).map Prod.snd) = 5
  rw [rotAA]
  norm_num [listMax, List.foldl, max_def]

theorem fMinX_AA : frameMinX cexA cexA = -235/2 := by
  show listMin ((rotInFrame1 cexA cexA).map Prod.fst) = -235/2
  rw [rotAA]
  norm_num [listMin, List.foldl, min_def]

theorem fMaxX_AA : frameMaxX cexA cexA = 235/2 := by
  show listMax ((rotInFrame1 cexA cexA).map Prod.fst) = 235/2
  rw [rotAA]
  norm_num [listMax, List.foldl, max_def]

theorem fMinY_AB2 : frameMinY cexA cexB = -5 := by
  show listMin ((rotInFrame1 cexA cexB).map Prod.snd) = -5
  rw [rotAB]
  norm_num [listMin, List.foldl, min_def]

theorem fMaxY_AB2 : frameMaxY cexA cexB = 3 := by
  show listMax ((rotInFrame1 cexA cexB).map Prod.snd) = 3
  rw [rotAB]
  norm_num [listMax, List.foldl, max_def]

theorem fMinX_AB2 : frameMinX cexA cexB = 243/2 := by
  show listMin ((rotInFrame1 cexA cexB).map Prod.fst) = 243/2
  rw [rotAB]
  norm_num [listMin, List.foldl, min_def]

theorem fMaxX_AB2 : frameMaxX cexA cexB = 245/2 := by
  show listMax ((rotInFrame1 cexA cexB).map Prod.fst) = 245/2
  rw [rotAB]
  norm_num [listMax, List.foldl, max_def]

theorem fMinY_CC : frameMinY cexC cexC = -5 := by
  show listMin ((rotInFrame1 cexC cexC).map Prod.snd) = -5
  rw [rotCC]
  norm_num [listMin, List.foldl, min_def]

theorem fMaxY_CC : frameMaxY cexC cexC = 5 := by
  show listMax ((rotInFrame1 cexC cexC).map Prod.snd) = 5
  rw [rotCC]
  norm_num [listMax, List.foldl, max_def]

theorem fMinY_CAB : frameMinY cexC cexAB = -223237/8410 := by
  show listMin ((rotInFrame1 cexC cexAB).map Prod.snd) = -223237/8410
  rw [rotCAB]
  norm_num [listMin, List.foldl, min_def]

theorem fMaxY_CAB : frameMaxY cexC cexAB = -40837/8410 := by
  show listMax ((rotInFrame1 cexC cexAB).map Prod.snd) = -40837/8410
  rw [rotCAB]
  norm_num [listMax, List.foldl, max_def]

theorem angleGate_AB : angleGate cexA cexB := by
  unfold angleGate
  rw [cexA_angle, cexB_angle, sub_self, abs_zero, sub_zero]
  rw [min_eq_left (by positivity : (0:ℝ) ≤ 2 * Real.pi)]
  unfold degrees
  norm_num

theorem angleGate_C_AB : angleGate cexC cexAB := by
  unfold angleGate
  rw [cexC_angle, cexAB_angle, zero_sub, abs_neg, abs_of_nonneg tilt_nonneg]
  have hpi := Real.pi_gt_three
  have htle := tilt_le
  have htnn := tilt_nonneg
  rw [min_eq_left (by linarith :
    Real.arctan (41 / 840) ≤ 2 * Real.pi - Real.arctan (41 / 840))]
  unfold degrees
  rw [div_le_iff₀ (by linarith : (0:ℝ) < Real.pi)]
  linarith

theorem vertGate_AB : alignedVerticalGate cexA cexB := by
  unfold alignedVerticalGate
  rw [fMaxY_AA, fMinY_AA, fMaxY_AB2, fMinY_AB2]
  norm_num [min_def, max_def]

theorem gapGate_AB : alignedGapGate cexA cexB := by
  unfold alignedGapGate alignedHGap
  rw [fMaxX_AA, fMinX_AB2, fMaxX_AB2, fMinX_AA, fMaxY_AA, fMinY_AA, fMaxY_AB2, fMinY_AB2]
  rw [if_pos (by norm_num : (235:ℝ)/2 < 243/2)]
  norm_num

theorem aligned_A_B : boxes_vertically_aligned cexA cexB :=
  (boxes_vertically_aligned_iff cexA cexB).mpr ⟨angleGate_AB, vertGate_AB, gapGate_AB⟩

theorem notVert_C_AB : ¬ alignedVerticalGate cexC cexAB := by
  unfold alignedVerticalGate
  rw [fMaxY_CC, fMinY_CC, fMaxY_CAB, fMinY_CAB]
  norm_num [min_def, max_def]

theorem not_aligned_C_AB : ¬ boxes_vertically_aligned cexC cexAB :=
  fun h => notVert_C_AB ((boxes_vertically_aligned_iff cexC cexAB).mp h).2.1

theorem not_overlap_A_B : ¬ boxes_overlap cexA cexB :=
  fun h => sep_A_B ((boxes_overlap_iff cexA cexB).mp h).2.2

theorem not_overlap_A_C : ¬ boxes_overlap cexA cexC :=
  fun h => sep_A_C ((boxes_overlap_iff cexA cexC).mp h).2.2

theorem not_overlap_B_C : ¬ boxes_overlap cexB cexC :=
  fun h => sep_B_C ((boxes_overlap_iff cexB cexC).mp h).2.2

theorem centerGate_C_AB : overlapCenterGate cexC cexAB := by
  unfold overlapCenterGate
  rw [cexC_angle, cexAB_angle, zero_add, Real.sin_neg, Real.cos_neg,
    cexAB_cx, cexC_cx, cexAB_cy, cexC_cy, cexC_h, cexAB_h, min_self]
  have hs2 := sin_sq_half_tilt
  have hc2 := cos_sq_half_tilt
  have hsc := sin_cos_half_tilt
  have hval : (619 * Real.sin (Real.arctan (41 / 840) / 2) -
      157 / 10 * Real.cos (Real.arctan (41 / 840) / 2)) ^ 2 = 61009 / 168200 := by
    linear_combination 383161 * hs2 + (24649 / 100) * hc2 - (97183 / 5) * hsc
  rw [abs_le]
  constructor
  · nlinarith [hval, sq_nonneg (619 * Real.sin (Real.arctan (41 / 840) / 2) -
      157 / 10 * Real.cos (Real.arctan (41 / 840) / 2) + 5)]
  · nlinarith [hval, sq_nonneg (619 * Real.sin (Real.arctan (41 / 840) / 2) -
      157 / 10 * Real.cos (Real.arctan (41 / 840) / 2) - 5)]

theorem inter_C_AB : polyIntersects cexC cexAB := by
  refine ⟨(100175/841, 18199/1682), ?_, ?_⟩
  · exact inHull_quad_pts ((1 - 96/841000) * (1 - 1008/84100))
      ((96/841000) * (1 - 1008/84100)) ((96/841000) * (1008/84100))
      ((1 - 96/841000) * (1008/84100))
      119 (107/10) 1119 (107/10) 1119 (207/10) 119 (207/10)
      (100175/841) (18199/1682)
      (by norm_num) (by norm_num) (by norm_num) (by norm_num)
      (by norm_num) (by norm_num) (by norm_num)
  · exact inHull_quad_pts 0 0 (479/480) (1/480)
      (-100595/841) (-9120/841) (101005/841) (720/841)
      (100595/841) (9120/841) (-101005/841) (-720/841)
      (100175/841) (18199/1682)
      (by norm_num) (by norm_num) (by norm_num) (by norm_num)
      (by norm_num) (by norm_num) (by norm_num)

theorem overlap_C_AB : boxes_overlap cexC cexAB :=
  (boxes_overlap_iff cexC cexAB).mpr ⟨angleGate_C_AB, centerGate_C_AB, inter_C_AB⟩

theorem mergedAngle_cex : mergedAngle cexAnnA cexAnnB = Real.arctan (41 / 840) := by
  have harea : cexAnnA.bounding_poly.area ≥ cexAnnB.bounding_poly.area := by
    show cexA.area ≥ cexB.area
    rw [cexA_area, cexB_area]
    norm_num
  unfold mergedAngle
  rw [if_pos harea]
  exact cexA_angle

theorem mergedRot_cex : mergedRotatedPts cexAnnA cexAnnB =
    [(-235/2, -5), (235/2, -5), (235/2, 5), (-235/2, 5),
     (243/2, -5), (245/2, -5), (245/2, 3), (243/2, 3)] := by
  unfold mergedRotatedPts rotateVerts
  rw [mergedAngle_cex, Real.cos_neg, Real.sin_neg, cos_tilt, sin_tilt]
  have hx : cexAnnA.bounding_poly.center.x = -2100 / 841 := cexA_cx
  have hy : cexAnnA.bounding_poly.center.y = -205 / 1682 := cexA_cy
  rw [hx, hy]
  norm_num [cexAnnA, cexAnnB, cexA, cexB, Prod.ext_iff]

theorem mergedXMin_cex : mergedXMin cexAnnA cexAnnB = -235/2 := by
  show listMin ((mergedRotatedPts cexAnnA cexAnnB).map Prod.fst) = -235/2
  rw [mergedRot_cex]
  norm_num [listMin, List.foldl, min_def]

theorem mergedXMax_cex : mergedXMax cexAnnA cexAnnB = 245/2 := by
  show listMax ((mergedRotatedPts cexAnnA cexAnnB).map Prod.fst) = 245/2
  rw [mergedRot_cex]
  norm_num [listMax, List.foldl, max_def]

theorem mergedYMin_cex : mergedYMin cexAnnA cexAnnB = -5 := by
  show listMin ((mergedRotatedPts cexAnnA cexAnnB).map Prod.snd) = -5
  rw [mergedRot_cex]
  norm_num [listMin, List.foldl, min_def]

theorem mergedYMax_cex : mergedYMax cexAnnA cexAnnB = 5 := by
  show listMax ((mergedRotatedPts cexAnnA cexAnnB).map Prod.snd) = 5
  rw [mergedRot_cex]
  norm_num [listMax, List.foldl, max_def]

theorem merged_poly_cex : (merge_boxes cexAnnA cexAnnB).bounding_poly = cexAB := by
  rw [merge_boxes_poly, mergedAngle_cex, Real.cos_neg, Real.sin_neg, cos_tilt, sin_tilt,
    mergedXMin_cex, mergedXMax_cex, mergedYMin_cex, mergedYMax_cex]
  have hx : cexAnnA.bounding_poly.center.x = -2100 / 841 := cexA_cx
  have hy : cexAnnA.bounding_poly.center.y = -205 / 1682 := cexA_cy
  rw [hx, hy]
  norm_num [cexAB, Point.mk.injEq]

/-- Counterexample for C6: on the concrete three-box input `cexInput`
(two thin tilted boxes A, B and a wide axis-aligned box C), the first run of
`clean_text_annotations` merges only A and B (pass 1 merges nothing, pass 2
merges A with B, and the merged box is not vertically aligned with C), while
a second run merges the remaining two boxes (the merged box of A and B now
overlaps C).  So the output lengths are 2 and then 1, and
`clean(clean X) ≠ clean X`. -/
theorem C6_full_idempotence_cex :
    clean_text_annotations (clean_text_annotations cexInput) ≠
      clean_text_annotations cexInput := by
  have hnAB : ¬ boxes_overlap cexAnnA.bounding_poly cexAnnB.bounding_poly := not_overlap_A_B
  have hnAC : ¬ boxes_overlap cexAnnA.bounding_poly cexAnnC.bounding_poly := not_overlap_A_C
  have hnBC : ¬ boxes_overlap cexAnnB.bounding_poly cexAnnC.bounding_poly := not_overlap_B_C
  have hal : boxes_vertically_aligned cexAnnA.bounding_poly cexAnnB.bounding_poly :=
    aligned_A_B
  have hp1 : findPair boxes_overlap cexInput = none := by
    unfold cexInput
    simp [findPair, findJ, hnAB, hnAC, hnBC]
  have hpass1 : merge_boxes_with_criteria boxes_overlap cexInput = cexInput :=
    mbwc_eq_of_none hp1
  have hf2 : findPair boxes_vertically_aligned cexInput = some (0, 1) := by
    unfold cexInput
    simp [findPair, findJ, hal]
  have hsplice : spliceMerge cexInput 0 1 = [cexAnnC, merge_boxes cexAnnA cexAnnB] := by
    simp [spliceMerge, cexInput]
  have hnCM : ¬ boxes_vertically_aligned cexAnnC.bounding_poly
      (merge_boxes cexAnnA cexAnnB).bounding_poly := by
    rw [merged_poly_cex]
    exact not_aligned_C_AB
  have hf3 : findPair boxes_vertically_aligned
      [cexAnnC, merge_boxes cexAnnA cexAnnB] = none := by
    simp [findPair, findJ, hnCM]
  have hclean1 : clean_text_annotations cexInput =
      [cexAnnC, merge_boxes cexAnnA cexAnnB] := by
    unfold clean_text_annotations
    rw [hpass1, mbwc_eq_of_some hf2, hsplice]
    exact mbwc_eq_of_none hf3
  have hovCM : boxes_overlap cexAnnC.bounding_poly
      (merge_boxes cexAnnA cexAnnB).bounding_poly := by
    rw [merged_poly_cex]
    exact overlap_C_AB
  have hf4 : findPair boxes_overlap [cexAnnC, merge_boxes cexAnnA cexAnnB] =
      some (0, 1) := by
    simp [findPair, findJ, hovCM]
  have hsplice2 : spliceMerge [cexAnnC, merge_boxes cexAnnA cexAnnB] 0 1 =
      [merge_boxes cexAnnC (merge_boxes cexAnnA cexAnnB)] := by
    simp [spliceMerge]
  have hone : ∀ (crit : BoundingBox → BoundingBox → Prop) (x : TextAnnotation),
      merge_boxes_with_criteria crit [x] = [x] :=
    fun crit x => mbwc_eq_of_none (findPair_singleton crit x)
  have hclean2 : clean_text_annotations [cexAnnC, merge_boxes cexAnnA cexAnnB] =
      [merge_boxes cexAnnC (merge_boxes cexAnnA cexAnnB)] := by
    unfold clean_text_annotations
    rw [mbwc_eq_of_some hf4, hsplice2, hone, hone]
  rw [hclean1, hclean2]
  intro h
  have hlen := congrArg List.length h
  simp at hlen

/-- C6 (amended): each single consolidation pass is idempotent — its output
admits no further matching pair, so rerunning `merge_boxes_with_criteria`
with the same predicate on its own output is a no-op.  (The full two-pass
`clean_text_annotations` is not idempotent: pass 2 can build a merged box
that overlaps a pass-1 survivor, as the counterexample shows.) -/
theorem C6_single_pass_idempotent
    (crit : BoundingBox → BoundingBox → Prop) (anns : List TextAnnotation) :
    merge_boxes_with_criteria crit (merge_boxes_with_criteria crit anns) =
        merge_boxes_with_criteria crit anns ∧
      findPair crit (merge_boxes_with_criteria crit anns) = none :=
  ⟨mbwc_idem anns, mbwc_fix anns⟩
